import Mathlib

/-!
# cli-gtm `update-datacenter`: a shallow embedding of `cmdUpdateDatacenter`

The Go function `cmdUpdateDatacenter` (file `command_update_datacenter.go`)
is embedded stage by stage:

* the property mutator (lines 116-125): `scanIds`, `scanTargets`, `mutate`;
* the update dispatcher (lines 105-158): `propertyStep`, `updatePass`;
* the completion poller (lines 160-196): `pollLoop`, `waitForCompletion`;
* the summary stage (lines 198-240): `finish`, `renderDCStatus`;
* the whole command (lines 42-242): `cmdUpdateDatacenter`.

The remote service, the JSON encoder, the colouriser and the table writer are
external collaborators; they are parameters of the embedding (`Remote`).
Go `int` and `time.Duration` values are `Int`s, wrapped to 64 bits where the
code does arithmetic on them.
-/

namespace CliGtm

/-! ## Data model -/

/-- Modelled from the spec: the `TrafficTarget` type of the vendor client
(`configgtm`), of which the command reads `DatacenterId`, `Name` and `Enabled`
and writes `Enabled`. -/
structure TrafficTarget where
  DatacenterId : Int
  Name : String
  Enabled : Bool
  deriving DecidableEq, Repr

/-- Modelled from the spec: the `Property` type of the vendor client, of which
the command reads `Name` and `TrafficTargets`. -/
structure Property where
  Name : String
  TrafficTargets : List TrafficTarget
  deriving DecidableEq, Repr

/-- Modelled from the spec: the `ResponseStatus` returned by `Property.Update`,
with the fields that `renderDCStatus` prints. -/
structure ResponseStatus where
  ChangeId : String
  Message : String
  PassingValidation : Bool
  PropagationStatus : String
  PropagationStatusDate : String
  deriving DecidableEq, Repr

/-- Modelled from the spec: the short success record `{PropName, ChangeId}`. -/
structure SuccUpdateShort where
  PropName : String
  ChangeId : String
  deriving DecidableEq, Repr

/-- Modelled from the spec: the verbose success record `{PropName, RespStat}`. -/
structure SuccUpdateVerbose where
  PropName : String
  RespStat : ResponseStatus
  deriving DecidableEq, Repr

/-- Modelled from the spec: the failure record `{PropName, FailMsg}`. -/
structure FailUpdate where
  PropName : String
  FailMsg : String
  deriving DecidableEq, Repr

/-! ## Property mutator (lines 116-125) -/

/-- Body of the innermost loop (lines 119-123) for one traffic target and one
requested datacenter id; the accumulator is the target together with
`changes_made`. `flagSet` is `c.IsSet("enable") || c.IsSet("disable")`. -/
def toggle (flagSet dcEnabled : Bool) (acc : TrafficTarget × Bool) (dcID : Int) :
    TrafficTarget × Bool :=
  if acc.1.DatacenterId = dcID ∧ flagSet = true ∧ acc.1.Enabled ≠ dcEnabled then
    ({ acc.1 with Enabled := dcEnabled }, true)
  else acc

/-- Loop `for _, dcID := range dcs.flagList` (lines 118-124) on one target. -/
def scanIds (flagSet dcEnabled : Bool) (flagList : List Int) (t : TrafficTarget)
    (changes_made : Bool) : TrafficTarget × Bool :=
  flagList.foldl (toggle flagSet dcEnabled) (t, changes_made)

/-- Loop `for _, traffTarg := range trafficTargets` (lines 116-125): the targets
after the in-place writes, and the final `changes_made`. -/
def scanTargets (flagSet dcEnabled : Bool) (flagList : List Int) :
    List TrafficTarget → Bool → List TrafficTarget × Bool
  | [], changes_made => ([], changes_made)
  | t :: rest, changes_made =>
    let r := scanIds flagSet dcEnabled flagList t changes_made
    let rs := scanTargets flagSet dcEnabled flagList rest r.2
    (r.1 :: rs.1, rs.2)

/-- The mutator on one property: `changes_made := false` (line 106) followed by
the loop of lines 116-125. -/
def mutate (flagSet dcEnabled : Bool) (flagList : List Int) (p : Property) :
    Property × Bool :=
  let r := scanTargets flagSet dcEnabled flagList p.TrafficTargets false
  ({ p with TrafficTargets := r.1 }, r.2)

/-! ## Command context, globals and external collaborators -/

/-- What the command reads from its `cli.Context`: the positional arguments and,
for each option, whether it is set (`c.IsSet`) and its value where one is read.
`flagList` and `nicknamesList` are the two lists of the `datacenter` option. -/
structure Flags where
  nArg : Nat
  domainName : String
  enableSet : Bool
  disableSet : Bool
  verboseSet : Bool
  completeSet : Bool
  dryrunSet : Bool
  timeoutSet : Bool
  timeout : Int
  datacenterSet : Bool
  flagList : List Int
  nicknamesList : List String
  jsonSet : Bool
  json : Bool

/-- The package-level variables the command reads and writes (lines 30-39, and
`verboseStatus`, declared elsewhere). Every accumulated record is paired with the
position, in the domain's property list, of the property whose loop iteration
appended it; `updateCalls` and `marshalCalls` log the positions of the properties
on which `Update` and `json.MarshalIndent` were invoked. Positions and logs are
bookkeeping of the embedding: no code reads them. -/
structure Globals where
  dcTimeout : Int
  dcDryrun : Bool
  dcEnabled : Bool
  dcComplete : Bool
  verboseStatus : Bool
  succShortArray : List (Nat × SuccUpdateShort)
  succVerboseArray : List (Nat × SuccUpdateVerbose)
  failedArray : List (Nat × FailUpdate)
  dryrunArray : List (Nat × String)
  updateCalls : List Nat
  marshalCalls : List Nat

/-- The variables as declared (lines 30-39): empty accumulators, `dcDryrun` and
`dcComplete` false, `dcEnabled` true. `defaultTimeout` and the initial
`verboseStatus` are declared outside this file and are parameters. -/
def Globals.initial (defaultTimeout : Int) (verboseStatus : Bool) : Globals :=
  { dcTimeout := defaultTimeout, dcDryrun := false, dcEnabled := true,
    dcComplete := false, verboseStatus := verboseStatus,
    succShortArray := [], succVerboseArray := [], failedArray := [],
    dryrunArray := [], updateCalls := [], marshalCalls := [] }

/-- The `Updated_Properties` field of the summary: unset, or one of the three
lists the code assigns to it (lines 204, 215, 217). -/
inductive UpdatedProperties where
  | unset
  | dryrun (l : List String)
  | verbose (l : List SuccUpdateVerbose)
  | short (l : List SuccUpdateShort)
  deriving DecidableEq, Repr

/-- Modelled from the spec: `UpdateSummary`, with the two fields
`Updated_Properties` and `Failed_Updates`; `none` is Go's `nil`. -/
structure UpdateSummary where
  Updated_Properties : UpdatedProperties
  Failed_Updates : Option (List FailUpdate)
  deriving DecidableEq, Repr

/-- External collaborators and constants declared outside this file, taken as
parameters. `Update i p d` is the answer of `p.Update(d)` for the property at
position `i` (each property is submitted at most once, so this covers a stateful
service); `GetDomainStatus k d` is the answer to the query made after `k` earlier
queries; `ParseNicknames` returns the ids the nicknames resolve to, which the
command adds to the requested ids. An `Except.error` carries the text of
`err.Error()`. -/
structure Env where
  defaultInterval : Int
  GetEdgegridConfig : Option String
  ParseNicknames : List String → String → Except String (List Int)
  GetDomain : String → Except String (List Property)
  Update : Nat → Property → String → Except String ResponseStatus
  MarshalIndent : Property → Except String String
  MarshalSummary : UpdateSummary → Except String String
  GetDomainStatus : Nat → String → Except String String
  RedString : String → String
  renderTable : List (List String) → String

/-- A non-nil return value of the command: the error of `GetEdgegridConfig`
handed on as it is (line 46), or `cli.NewExitError(message, exitCode)`. -/
inductive CmdError where
  | config (msg : String)
  | exit (message : String) (exitCode : Nat)
  deriving DecidableEq, Repr

/-- What the command writes to `c.App.Writer`: the help text of
`cli.ShowCommandHelp`, or a line of `fmt.Fprintln`. -/
inductive Output where
  | help
  | line (s : String)
  deriving DecidableEq, Repr

/-! ## Update dispatcher (lines 105-158) -/

/-- Body of the loop over the properties (lines 106-157) for the property `p`
at position `i`: the property after the in-place writes, and the globals. The
spinner and the progress text are not modelled. -/
def propertyStep (E : Env) (c : Flags) (flagList : List Int) (i : Nat)
    (p : Property) (g : Globals) : Property × Globals :=
  let m := mutate (c.enableSet || c.disableSet) g.dcEnabled flagList p
  if m.2 then
    if g.dcDryrun then
      match E.MarshalIndent m.1 with
      | .error e =>
        (m.1, { g with failedArray := g.failedArray ++ [(i, ⟨m.1.Name, e⟩)],
                       marshalCalls := g.marshalCalls ++ [i] })
      | .ok js =>
        (m.1, { g with dryrunArray := g.dryrunArray ++ [(i, js)],
                       marshalCalls := g.marshalCalls ++ [i] })
    else
      match E.Update i m.1 c.domainName with
      | .error e =>
        (m.1, { g with failedArray := g.failedArray ++ [(i, ⟨m.1.Name, e⟩)],
                       updateCalls := g.updateCalls ++ [i] })
      | .ok stat =>
        if c.verboseSet && g.verboseStatus then
          (m.1, { g with succVerboseArray := g.succVerboseArray ++ [(i, ⟨m.1.Name, stat⟩)],
                         updateCalls := g.updateCalls ++ [i] })
        else
          (m.1, { g with succShortArray := g.succShortArray ++ [(i, ⟨m.1.Name, stat.ChangeId⟩)],
                         updateCalls := g.updateCalls ++ [i] })
  else (m.1, g)

/-- Loop `for _, propPtr := range properties` (lines 105-158), the first
property being at position `i`. -/
def updatePass (E : Env) (c : Flags) (flagList : List Int) :
    Nat → List Property → Globals → List Property × Globals
  | _, [], g => ([], g)
  | i, p :: ps, g =>
    let r := propertyStep E c flagList i p g
    let rs := updatePass E c flagList (i + 1) ps r.2
    (r.1 :: rs.1, rs.2)

/-! ## Completion poller (lines 160-196) -/

/-- Two's-complement wrap of an integer to 64 bits (`int64`, `time.Duration`). -/
def wrapInt64 (x : Int) : Int := (x + 2 ^ 63) % 2 ^ 64 - 2 ^ 63

/-- The branch in which the wait loop stops. -/
inductive PollState where
  | complete
  | denied
  | error
  | timedOut
  deriving DecidableEq, Repr

/-- What the wait loop does to the outside: a call of `GetDomainStatus`, or a
`time.Sleep` of the given number of nanoseconds. -/
inductive PollEvent where
  | query
  | sleep (ns : Int)
  deriving DecidableEq, Repr

/-- Where the wait loop stopped, how many calls of `GetDomainStatus` it made, and
its events in order. -/
structure PollResult where
  state : PollState
  queries : Nat
  trace : List PollEvent
  deriving DecidableEq, Repr

/-- The `for` loop of lines 168-195. `status k` is the answer to the query made
after `k` earlier ones, `sleepInterval` and `sleepTimeout` are the two
`time.Duration` variables, `trace` the events so far. One unit of fuel is one
iteration; `none` means the loop is still running when the fuel is spent. -/
def pollLoop (status : Nat → Except String String) (sleepInterval : Int) :
    Nat → Nat → Int → List PollEvent → Option PollResult
  | 0, _, _, _ => none
  | fuel + 1, k, sleepTimeout, trace =>
    match status k with
    | .error _ => some ⟨PollState.error, k + 1, trace ++ [PollEvent.query]⟩
    | .ok propagationStatus =>
      let trace1 := trace ++ [PollEvent.query,
        PollEvent.sleep (wrapInt64 (sleepInterval * 1000000000))]
      let sleepTimeout1 := wrapInt64 (sleepTimeout - sleepInterval)
      if propagationStatus = "COMPLETE" then
        some ⟨PollState.complete, k + 1, trace1⟩
      else if propagationStatus = "DENIED" then
        some ⟨PollState.denied, k + 1, trace1⟩
      else if sleepTimeout1 ≤ 0 then
        some ⟨PollState.timedOut, k + 1, trace1⟩
      else pollLoop status sleepInterval fuel (k + 1) sleepTimeout1 trace1

/-- The poller from its two settings (lines 161-164 and the loop): both
durations start at 1 and are multiplied by the interval and the timeout. -/
def poller (status : Nat → Except String String) (interval timeout : Int)
    (fuel : Nat) : Option PollResult :=
  pollLoop status (wrapInt64 (1 * wrapInt64 interval)) fuel 0
    (wrapInt64 (1 * wrapInt64 timeout)) []

/-- Lines 160-196: the wait loop runs only if completion was requested and a
success was recorded. The outer `none` means the fuel ran out, the inner `none`
that the loop was not entered. -/
def waitForCompletion (E : Env) (c : Flags) (g : Globals) (fuel : Nat) :
    Option (Option PollResult) :=
  if g.dcComplete && (decide (g.succVerboseArray.length > 0) ||
      decide (g.succShortArray.length > 0)) then
    (poller (fun k => E.GetDomainStatus k c.domainName) E.defaultInterval
      g.dcTimeout fuel).map some
  else some none

/-! ## Summary stage (lines 198-240) and `renderDCStatus` (lines 244-312) -/

/-- Rows appended to the table by `renderDCStatus` (lines 263-305). -/
def statusRows (c : Flags) (g : Globals) : List (List String) :=
  [["Completed Updates", " ", " ", " "]] ++
  (if c.verboseSet && g.verboseStatus then
    if g.succVerboseArray.length = 0 then [[" ", "No successful updates", " ", " "]]
    else g.succVerboseArray.flatMap (fun e =>
      [[" ", e.2.PropName, "ChangeId", e.2.RespStat.ChangeId],
       [" ", " ", "Message", e.2.RespStat.Message],
       [" ", " ", "Passing Validation",
         if e.2.RespStat.PassingValidation then "true" else "false"],
       [" ", " ", "Propagation Status", e.2.RespStat.PropagationStatus],
       [" ", " ", "Propagation Status Date", e.2.RespStat.PropagationStatusDate]])
  else
    if g.succShortArray.length = 0 then [[" ", "No successful updates", " ", " "]]
    else g.succShortArray.map (fun e => [" ", e.2.PropName, "ChangeId", e.2.ChangeId])) ++
  [["Failed Updates", " ", " ", " "]] ++
  (if g.failedArray.length = 0 then [[" ", "No failed property updates", " ", " "]]
   else g.failedArray.map (fun e => [" ", e.2.PropName, "Failure Message", e.2.FailMsg]))

/-- The string built by `renderDCStatus`: three header lines, then the table as
the table writer renders it. -/
def renderDCStatus (E : Env) (c : Flags) (g : Globals) : String :=
  " \n" ++ "Datacenter Update Summary\n" ++ " \n" ++
    (E.renderTable (statusRows c g) ++ "\n")

/-- What the summary stage yields: the return value (`none` is `nil`), the
`updateSum` it built, if it got that far, and what it wrote. -/
structure Finish where
  err : Option CmdError
  updateSum : Option UpdateSummary
  out : List Output

/-- Lines 202-240: the summary is built and written. -/
def summarize (E : Env) (c : Flags) (g : Globals) : Finish :=
  if g.dcDryrun then
    let updateSum : UpdateSummary :=
      ⟨UpdatedProperties.dryrun (g.dryrunArray.map Prod.snd),
        some (g.failedArray.map Prod.snd)⟩
    match E.MarshalSummary updateSum with
    | .error _ =>
      ⟨some (CmdError.exit (E.RedString "Unable to display dryrun results") 1),
        some updateSum, []⟩
    | .ok js => ⟨none, some updateSum, [Output.line js]⟩
  else
    let updated : UpdatedProperties :=
      if (c.verboseSet && g.verboseStatus) && decide (g.succVerboseArray.length > 0) then
        UpdatedProperties.verbose (g.succVerboseArray.map Prod.snd)
      else if g.succShortArray.length > 0 then
        UpdatedProperties.short (g.succShortArray.map Prod.snd)
      else UpdatedProperties.unset
    let failed : Option (List FailUpdate) :=
      if g.failedArray.length > 0 then some (g.failedArray.map Prod.snd) else none
    let updateSum : UpdateSummary := ⟨updated, failed⟩
    if failed = none ∧ updated = UpdatedProperties.unset then
      if !c.jsonSet then
        ⟨none, some updateSum, [Output.line "No property updates were needed."]⟩
      else ⟨none, some updateSum, []⟩
    else if c.jsonSet && c.json then
      match E.MarshalSummary updateSum with
      | .error _ =>
        ⟨some (CmdError.exit (E.RedString "Unable to display status results") 1),
          some updateSum, []⟩
      | .ok js => ⟨none, some updateSum, [Output.line js]⟩
    else
      ⟨none, some updateSum, [Output.line "", Output.line (renderDCStatus E c g)]⟩

/-- Lines 198-240, on the globals left by the pass over `properties`: the early
exit for a domain of one property with a recorded failure, else the summary. -/
def finish (E : Env) (c : Flags) (g : Globals) (properties : List Property) : Finish :=
  match decide (properties.length = 1), g.failedArray with
  | true, f :: _ =>
    ⟨some (CmdError.exit (E.RedString
      ("Error updating property " ++ f.2.PropName ++ ": " ++ f.2.FailMsg)) 1), none, []⟩
  | _, _ => summarize E c g

/-! ## The command (lines 42-242) -/

/-- Lines 58-76 without the check for both of `enable` and `disable`: the
globals after the options are read. -/
def applyFlags (c : Flags) (g : Globals) : Globals :=
  { g with
    dcEnabled := if c.enableSet then true else if c.disableSet then false else g.dcEnabled,
    verboseStatus := if c.verboseSet then true else g.verboseStatus,
    dcComplete := if c.completeSet then true else g.dcComplete,
    dcDryrun := if c.dryrunSet then true else g.dcDryrun,
    dcTimeout := if c.timeoutSet then c.timeout else g.dcTimeout }

/-- What one run of the command yields: its return value (`none` is `nil`, exit
code 0), the globals and the domain's properties as it leaves them, the wait
loop's result if that loop ran, the summary it built and what it wrote. -/
structure Result where
  err : Option CmdError
  globals : Globals
  properties : List Property
  poll : Option PollResult
  updateSum : Option UpdateSummary
  out : List Output

/-- The function `cmdUpdateDatacenter`, started with the globals `g0`. The
result is `none` when the wait loop is still running after `fuel` iterations.
Text printed to standard output and the spinner are not modelled. -/
def cmdUpdateDatacenter (E : Env) (c : Flags) (g0 : Globals) (fuel : Nat) :
    Option Result :=
  match E.GetEdgegridConfig with
  | some e => some ⟨some (CmdError.config e), g0, [], none, none, []⟩
  | none =>
    if c.nArg = 0 then
      some ⟨some (CmdError.exit (E.RedString "domain name is required") 1),
        g0, [], none, none, [Output.help]⟩
    else if c.enableSet && c.disableSet then
      some ⟨some (CmdError.exit (E.RedString "must specified either enable or disable.") 1),
        g0, [], none, none, []⟩
    else
      let g := applyFlags c g0
      match E.ParseNicknames c.nicknamesList c.domainName with
      | .error e =>
        if g.verboseStatus then
          some ⟨some (CmdError.exit
            (E.RedString ("Unable to retrieve datacenter list. " ++ e)) 1),
            g, [], none, none, []⟩
        else
          some ⟨some (CmdError.exit (E.RedString "Unable to retrieve datacenter.") 1),
            g, [], none, none, []⟩
      | .ok ids =>
        let flagList := c.flagList ++ ids
        if !c.datacenterSet || decide (flagList.length = 0) then
          some ⟨some (CmdError.exit (E.RedString "One or more datacenters is required") 1),
            g, [], none, none, [Output.help]⟩
        else
          match E.GetDomain c.domainName with
          | .error _ =>
            some ⟨some (CmdError.exit
              (E.RedString ("Domain " ++ c.domainName ++ " not found ")) 1),
              g, [], none, none, []⟩
          | .ok properties =>
            let pass := updatePass E c flagList 0 properties g
            match waitForCompletion E c pass.2 fuel with
            | none => none
            | some poll =>
              let fin := finish E c pass.2 properties
              some ⟨fin.err, pass.2, pass.1, poll, fin.updateSum, fin.out⟩

/-! ## Auxiliary definitions for the statements -/

/-- The value the mutator leaves in a target's `Enabled`. -/
def wanted (flagSet dcEnabled : Bool) (flagList : List Int) (t : TrafficTarget) : Bool :=
  if flagSet = true ∧ t.DatacenterId ∈ flagList then dcEnabled else t.Enabled

/-- The globals with the four accumulators and the two call logs emptied: the
state in which the command finds them when the process starts. -/
def clearAccum (g : Globals) : Globals :=
  { g with succShortArray := [], succVerboseArray := [], failedArray := [],
           dryrunArray := [], updateCalls := [], marshalCalls := [] }

/-- What the loop iteration for the property `p` at position `i` appends: the
iteration run on emptied accumulators. -/
def contribution (E : Env) (c : Flags) (flagList : List Int) (g : Globals) (i : Nat)
    (p : Property) : Globals :=
  (propertyStep E c flagList i p (clearAccum g)).2

/-- Concatenation of `f i p`, `f (i+1) p'`, ... along a list of properties whose
first element is at position `i`. -/
def gather {β : Type} (f : Nat → Property → List β) : Nat → List Property → List β
  | _, [] => []
  | i, p :: ps => f i p ++ gather f (i + 1) ps

/-- The events of `m` full iterations of the wait loop, each a query followed by
a sleep of `ns` nanoseconds. -/
def rounds (ns : Int) : Nat → List PollEvent
  | 0 => []
  | m + 1 => [PollEvent.query, PollEvent.sleep ns] ++ rounds ns m

/-- Number of `sleep` events that precede the `k`-th `query` event of a trace,
counting queries from 1; `none` if the trace has no `k`-th query. -/
def sleepsBeforeQuery : List PollEvent → Nat → Option Nat
  | _, 0 => none
  | [], _ + 1 => none
  | PollEvent.sleep _ :: rest, k + 1 => (sleepsBeforeQuery rest (k + 1)).map (fun n => n + 1)
  | PollEvent.query :: rest, k + 1 => if k = 0 then some 0 else sleepsBeforeQuery rest k

/-- A status service that answers from a list, and with `PENDING` once the list
is used up. -/
def statusFrom (answers : List String) (k : Nat) : Except String String :=
  Except.ok (answers.getD k "PENDING")

/-! ## A sample run, used to instantiate the theorems -/

/-- A domain of three properties: the first two have a target in datacenter 7,
the third has none. -/
def sampleProperties : List Property :=
  [⟨"www", [⟨7, "east", true⟩, ⟨8, "west", true⟩]⟩,
   ⟨"api", [⟨7, "east", true⟩]⟩,
   ⟨"cdn", [⟨9, "south", true⟩]⟩]

/-- A service that rejects the update of the first property and accepts every
other, and an encoder that rejects the second property. No colour, no table. -/
def sampleEnv : Env :=
  { defaultInterval := 5
    GetEdgegridConfig := none
    ParseNicknames := fun _ _ => Except.ok []
    GetDomain := fun _ => Except.ok sampleProperties
    Update := fun i _ _ =>
      if i = 0 then Except.error "boom"
      else Except.ok ⟨"42", "accepted", true, "PENDING", "today"⟩
    MarshalIndent := fun p => if p.Name = "api" then Except.error "bad" else Except.ok p.Name
    MarshalSummary := fun _ => Except.ok "summary"
    GetDomainStatus := fun _ _ => Except.ok "COMPLETE"
    RedString := fun m => m
    renderTable := fun _ => "table" }

/-- The options `example.com --datacenter 7 --disable`. -/
def sampleFlags : Flags :=
  { nArg := 1, domainName := "example.com", enableSet := false, disableSet := true,
    verboseSet := false, completeSet := false, dryrunSet := false, timeoutSet := false,
    timeout := 0, datacenterSet := true, flagList := [7], nicknamesList := [],
    jsonSet := false, json := false }

/-- The globals after `sampleFlags` are read, at process start. -/
def sampleGlobals : Globals := applyFlags sampleFlags (Globals.initial 300 false)

/-- The options `example.com --datacenter 7 --disable --dryrun`. -/
def sampleDryFlags : Flags := { sampleFlags with dryrunSet := true }

/-- The globals after `sampleDryFlags` are read, at process start. -/
def sampleDryGlobals : Globals := applyFlags sampleDryFlags (Globals.initial 300 false)

/-- The sample service for a domain that has the first sample property only. -/
def singleEnv : Env :=
  { sampleEnv with GetDomain := fun _ => Except.ok [⟨"www", [⟨7, "east", true⟩, ⟨8, "west", true⟩]⟩] }

/-! ## The mutator: what it computes -/

lemma scanIds_eq (fs v : Bool) (fl : List Int) (t : TrafficTarget) (cm : Bool) :
    scanIds fs v fl t cm =
      ({ t with Enabled := wanted fs v fl t }, cm || (t.Enabled != wanted fs v fl t)) := by
  unfold scanIds
  induction fl generalizing t cm with
  | nil => simp [wanted]
  | cons d fl ih =>
    rw [List.foldl_cons]
    by_cases h : t.DatacenterId = d ∧ fs = true ∧ t.Enabled ≠ v
    · obtain ⟨h1, h2, h3⟩ := h
      have ht : toggle fs v (t, cm) d = ({ t with Enabled := v }, true) := by
        simp [toggle, h1, h2, h3]
      rw [ht, ih]
      have hne : (t.Enabled != v) = true := by simpa using h3
      simp [wanted, h1, h2, hne]
    · have ht : toggle fs v (t, cm) d = (t, cm) := by
        unfold toggle
        rw [if_neg h]
      rw [ht, ih]
      have hw : wanted fs v (d :: fl) t = wanted fs v fl t := by
        unfold wanted
        by_cases hfs : fs = true
        · by_cases hd : t.DatacenterId = d
          · have hv : t.Enabled = v := by
              by_contra hc
              exact h ⟨hd, hfs, hc⟩
            by_cases hm : t.DatacenterId ∈ fl <;> simp [hfs, hd, hm, hv]
          · simp [hfs, hd]
        · simp [hfs]
      rw [hw]

lemma scanTargets_eq (fs v : Bool) (fl : List Int) (ts : List TrafficTarget) (cm : Bool) :
    scanTargets fs v fl ts cm =
      (ts.map (fun t => { t with Enabled := wanted fs v fl t }),
        cm || ts.any (fun t => t.Enabled != wanted fs v fl t)) := by
  induction ts generalizing cm with
  | nil => simp [scanTargets]
  | cons t ts ih =>
    simp only [scanTargets, scanIds_eq, ih, List.map_cons, List.any_cons, Bool.or_assoc]

lemma mutate_eq (fs v : Bool) (fl : List Int) (p : Property) :
    mutate fs v fl p =
      ({ p with TrafficTargets :=
          p.TrafficTargets.map (fun t => { t with Enabled := wanted fs v fl t }) },
        p.TrafficTargets.any (fun t => t.Enabled != wanted fs v fl t)) := by
  simp [mutate, scanTargets_eq]

lemma mutate_fixed (fs v : Bool) (fl : List Int) (p : Property)
    (hw : ∀ t ∈ p.TrafficTargets, wanted fs v fl t = t.Enabled) :
    mutate fs v fl p = (p, false) := by
  rw [mutate_eq]
  have h1 : p.TrafficTargets.map (fun t => { t with Enabled := wanted fs v fl t })
      = p.TrafficTargets := by
    conv_rhs => rw [← List.map_id p.TrafficTargets]
    apply List.map_congr_left
    intro t ht
    simp [hw t ht]
  have h2 : p.TrafficTargets.any (fun t => t.Enabled != wanted fs v fl t) = false := by
    rw [List.any_eq_false]
    intro t ht
    simp [hw t ht]
  rw [h1, h2]

lemma mutate_clean (fs v : Bool) (fl : List Int) (p : Property)
    (h : ∀ t ∈ p.TrafficTargets, t.DatacenterId ∈ fl → t.Enabled = v) :
    mutate fs v fl p = (p, false) := by
  apply mutate_fixed
  intro t ht
  unfold wanted
  split
  · next hc => exact (h t ht hc.2).symm
  · rfl

/-- C9. Reference definition of the property mutator: after the loop the
property keeps its name and the number and order of its targets; the target at
each position keeps its datacenter id and name, and its `Enabled` is the
requested value `v` if `enable` or `disable` is set and its datacenter id is
among the requested ids, and its previous value otherwise; `changes_made` holds
exactly when the `Enabled` of some target changed; and with neither option set
the property is unchanged and `changes_made` is false. -/
theorem mutator_reference (p : Property) (flagList : List Int)
    (enableSet disableSet v : Bool) :
    ((mutate (enableSet || disableSet) v flagList p).1.Name = p.Name ∧
    (mutate (enableSet || disableSet) v flagList p).1.TrafficTargets.length
      = p.TrafficTargets.length ∧
    (∀ (i : Nat) (t : TrafficTarget), p.TrafficTargets[i]? = some t →
      (mutate (enableSet || disableSet) v flagList p).1.TrafficTargets[i]? =
        some (TrafficTarget.mk t.DatacenterId t.Name
          (if (enableSet = true ∨ disableSet = true) ∧
            t.DatacenterId ∈ flagList then v else t.Enabled))) ∧
    ((mutate (enableSet || disableSet) v flagList p).2 = true ↔
      ∃ (i : Nat) (t t' : TrafficTarget), p.TrafficTargets[i]? = some t ∧
        (mutate (enableSet || disableSet) v flagList p).1.TrafficTargets[i]? = some t' ∧
        t'.Enabled ≠ t.Enabled)) ∧
    (enableSet = false ∧ disableSet = false →
      mutate (enableSet || disableSet) v flagList p = (p, false)) := by
  refine ⟨?_, fun hno => mutate_fixed _ _ _ _ (fun t _ => by simp [wanted, hno.1, hno.2])⟩
  rw [mutate_eq]
  refine ⟨rfl, by simp, ?_, ?_⟩
  · intro i t ht
    simp [List.getElem?_map, ht, wanted]
  · simp only [List.any_eq_true, List.getElem?_map]
    constructor
    · rintro ⟨t, ht, hne⟩
      obtain ⟨i, hi⟩ := List.getElem?_of_mem ht
      refine ⟨i, t, _, hi, by rw [hi]; rfl, ?_⟩
      intro h
      simp only at h
      rw [h] at hne
      simp at hne
    · rintro ⟨i, t, t', hi, ht', hne⟩
      refine ⟨t, List.getElem?_mem hi, ?_⟩
      rw [hi] at ht'
      simp only [Option.map_some', Option.some.injEq] at ht'
      subst ht'
      simp only at hne
      simpa using fun h => hne h.symm

/-! ## The pass over the properties as a concatenation of contributions -/

lemma step_lists (E : Env) (c : Flags) (fl : List Int) (i : Nat) (p : Property)
    (g : Globals) :
    clearAccum (propertyStep E c fl i p g).2 = clearAccum g ∧
    (propertyStep E c fl i p g).2.succShortArray
      = g.succShortArray ++ (contribution E c fl g i p).succShortArray ∧
    (propertyStep E c fl i p g).2.succVerboseArray
      = g.succVerboseArray ++ (contribution E c fl g i p).succVerboseArray ∧
    (propertyStep E c fl i p g).2.failedArray
      = g.failedArray ++ (contribution E c fl g i p).failedArray ∧
    (propertyStep E c fl i p g).2.dryrunArray
      = g.dryrunArray ++ (contribution E c fl g i p).dryrunArray ∧
    (propertyStep E c fl i p g).2.updateCalls
      = g.updateCalls ++ (contribution E c fl g i p).updateCalls ∧
    (propertyStep E c fl i p g).2.marshalCalls
      = g.marshalCalls ++ (contribution E c fl g i p).marshalCalls := by
  simp only [propertyStep, contribution, clearAccum]
  split_ifs <;> (try split) <;> simp

lemma contribution_congr (E : Env) (c : Flags) (fl : List Int) (g g' : Globals)
    (h : clearAccum g' = clearAccum g) (i : Nat) (p : Property) :
    contribution E c fl g' i p = contribution E c fl g i p := by
  unfold contribution
  rw [h]

lemma pass_lists (E : Env) (c : Flags) (fl : List Int) (ps : List Property) :
    ∀ (i : Nat) (g : Globals),
    clearAccum (updatePass E c fl i ps g).2 = clearAccum g ∧
    (updatePass E c fl i ps g).2.succShortArray
      = g.succShortArray ++ gather (fun j q => (contribution E c fl g j q).succShortArray) i ps ∧
    (updatePass E c fl i ps g).2.succVerboseArray
      = g.succVerboseArray ++
        gather (fun j q => (contribution E c fl g j q).succVerboseArray) i ps ∧
    (updatePass E c fl i ps g).2.failedArray
      = g.failedArray ++ gather (fun j q => (contribution E c fl g j q).failedArray) i ps ∧
    (updatePass E c fl i ps g).2.dryrunArray
      = g.dryrunArray ++ gather (fun j q => (contribution E c fl g j q).dryrunArray) i ps ∧
    (updatePass E c fl i ps g).2.updateCalls
      = g.updateCalls ++ gather (fun j q => (contribution E c fl g j q).updateCalls) i ps ∧
    (updatePass E c fl i ps g).2.marshalCalls
      = g.marshalCalls ++ gather (fun j q => (contribution E c fl g j q).marshalCalls) i ps := by
  induction ps with
  | nil => intro i g; simp [updatePass, gather]
  | cons p ps ih =>
    intro i g
    obtain ⟨s0, s1, s2, s3, s4, s5, s6⟩ := step_lists E c fl i p g
    obtain ⟨h0, h1, h2, h3, h4, h5, h6⟩ := ih (i + 1) (propertyStep E c fl i p g).2
    have hc : ∀ j q, contribution E c fl (propertyStep E c fl i p g).2 j q
        = contribution E c fl g j q := contribution_congr E c fl g _ s0
    simp only [hc] at h1 h2 h3 h4 h5 h6
    simp only [updatePass, gather]
    refine ⟨h0.trans s0, ?_, ?_, ?_, ?_, ?_, ?_⟩
    · rw [h1, s1, List.append_assoc]
    · rw [h2, s2, List.append_assoc]
    · rw [h3, s3, List.append_assoc]
    · rw [h4, s4, List.append_assoc]
    · rw [h5, s5, List.append_assoc]
    · rw [h6, s6, List.append_assoc]

/-! ## Entries of a gathered list by position -/

lemma gather_tag_ge {β : Type} (tag : β → Nat) (f : Nat → Property → List β)
    (hf : ∀ j q, ∀ e ∈ f j q, tag e = j) (ps : List Property) :
    ∀ (i : Nat), ∀ e ∈ gather f i ps, i ≤ tag e ∧ tag e < i + ps.length := by
  induction ps with
  | nil => intro i e he; simp [gather] at he
  | cons p ps ih =>
    intro i e he
    simp only [gather, List.mem_append] at he
    rcases he with he | he
    · have := hf i p e he
      simp only [List.length_cons]
      omega
    · have := ih (i + 1) e he
      simp only [List.length_cons]
      omega

lemma gather_filter {β : Type} (tag : β → Nat) (f : Nat → Property → List β)
    (hf : ∀ j q, ∀ e ∈ f j q, tag e = j) (ps : List Property) :
    ∀ (i k : Nat), (gather f i ps).filter (fun e => decide (tag e = i + k))
      = match ps[k]? with
        | some q => f (i + k) q
        | none => [] := by
  induction ps with
  | nil => intro i k; simp [gather]
  | cons p ps ih =>
    intro i k
    simp only [gather, List.filter_append]
    cases k with
    | zero =>
      have h1 : (f i p).filter (fun e => decide (tag e = i + 0)) = f i p := by
        rw [List.filter_eq_self]
        intro e he
        simp [hf i p e he]
      have h2 : (gather f (i + 1) ps).filter (fun e => decide (tag e = i + 0)) = [] := by
        rw [List.filter_eq_nil_iff]
        intro e he
        have := (gather_tag_ge tag f hf ps (i + 1) e he).1
        simp only [decide_eq_true_eq]
        omega
      rw [h1, h2]
      simp
    | succ k =>
      have h1 : (f i p).filter (fun e => decide (tag e = i + (k + 1))) = [] := by
        rw [List.filter_eq_nil_iff]
        intro e he
        have := hf i p e he
        simp only [decide_eq_true_eq]
        omega
      have h2 := ih (i + 1) k
      have h3 : i + 1 + k = i + (k + 1) := by omega
      rw [h3] at h2
      simp [h1, h2]

lemma gather_pairwise {β : Type} (tag : β → Nat) (f : Nat → Property → List β)
    (hf : ∀ j q, ∀ e ∈ f j q, tag e = j) (hlen : ∀ j q, (f j q).length ≤ 1)
    (ps : List Property) :
    ∀ (i : Nat), ((gather f i ps).map tag).Pairwise (fun a b => a < b) := by
  induction ps with
  | nil => intro i; simp [gather]
  | cons p ps ih =>
    intro i
    simp only [gather, List.map_append, List.pairwise_append]
    refine ⟨?_, ih (i + 1), ?_⟩
    · have hl := hlen i p
      match hfp : f i p with
      | [] => simp
      | [a] => simp
      | a :: b :: r => rw [hfp] at hl; simp at hl
    · intro a ha b hb
      simp only [List.mem_map] at ha hb
      obtain ⟨x, hx, rfl⟩ := ha
      obtain ⟨y, hy, rfl⟩ := hb
      have h1 := hf i p x hx
      have h2 := (gather_tag_ge tag f hf ps (i + 1) y hy).1
      omega

/-! ## What one property contributes -/

lemma contribution_clean (E : Env) (c : Flags) (fl : List Int) (g : Globals) (i : Nat)
    (p : Property)
    (h : (mutate (c.enableSet || c.disableSet) g.dcEnabled fl p).2 = false) :
    contribution E c fl g i p = clearAccum g := by
  simp only [contribution, propertyStep, clearAccum] at *
  simp [h]

lemma contribution_tags (E : Env) (c : Flags) (fl : List Int) (g : Globals) (i : Nat)
    (p : Property) :
    ((∀ e ∈ (contribution E c fl g i p).succShortArray, e.1 = i) ∧
      (contribution E c fl g i p).succShortArray.length ≤ 1) ∧
    ((∀ e ∈ (contribution E c fl g i p).succVerboseArray, e.1 = i) ∧
      (contribution E c fl g i p).succVerboseArray.length ≤ 1) ∧
    ((∀ e ∈ (contribution E c fl g i p).failedArray, e.1 = i) ∧
      (contribution E c fl g i p).failedArray.length ≤ 1) ∧
    ((∀ e ∈ (contribution E c fl g i p).dryrunArray, e.1 = i) ∧
      (contribution E c fl g i p).dryrunArray.length ≤ 1) ∧
    ((∀ e ∈ (contribution E c fl g i p).updateCalls, e = i) ∧
      (contribution E c fl g i p).updateCalls.length ≤ 1) ∧
    ((∀ e ∈ (contribution E c fl g i p).marshalCalls, e = i) ∧
      (contribution E c fl g i p).marshalCalls.length ≤ 1) := by
  simp only [contribution, propertyStep, clearAccum]
  split_ifs <;> (try split) <;> simp

lemma contribution_live (E : Env) (c : Flags) (fl : List Int) (g : Globals) (i : Nat)
    (p : Property) (hd : g.dcDryrun = false)
    (hm : (mutate (c.enableSet || c.disableSet) g.dcEnabled fl p).2 = true) :
    (contribution E c fl g i p).updateCalls = [i] ∧
    (contribution E c fl g i p).marshalCalls = [] ∧
    (contribution E c fl g i p).dryrunArray = [] ∧
    (∀ e, E.Update i (mutate (c.enableSet || c.disableSet) g.dcEnabled fl p).1 c.domainName
        = Except.error e →
      (contribution E c fl g i p).failedArray = [(i, ⟨p.Name, e⟩)] ∧
      (contribution E c fl g i p).succShortArray = [] ∧
      (contribution E c fl g i p).succVerboseArray = []) ∧
    (∀ stat, E.Update i (mutate (c.enableSet || c.disableSet) g.dcEnabled fl p).1 c.domainName
        = Except.ok stat →
      (contribution E c fl g i p).failedArray = [] ∧
      (contribution E c fl g i p).succVerboseArray
        = (if (c.verboseSet && g.verboseStatus) = true then [(i, ⟨p.Name, stat⟩)] else []) ∧
      (contribution E c fl g i p).succShortArray
        = (if (c.verboseSet && g.verboseStatus) = true then []
           else [(i, ⟨p.Name, stat.ChangeId⟩)])) := by
  have hn : (mutate (c.enableSet || c.disableSet) g.dcEnabled fl p).1.Name = p.Name := rfl
  cases hU : E.Update i (mutate (c.enableSet || c.disableSet) g.dcEnabled fl p).1 c.domainName with
  | error e =>
    simp [contribution, propertyStep, clearAccum, hm, hd, hU, hn]
  | ok stat =>
    by_cases hv : (c.verboseSet && g.verboseStatus) = true
    · simp [contribution, propertyStep, clearAccum, hm, hd, hU, hn, hv]
    · simp [contribution, propertyStep, clearAccum, hm, hd, hU, hn, hv]

lemma contribution_dry (E : Env) (c : Flags) (fl : List Int) (g : Globals) (i : Nat)
    (p : Property) (hd : g.dcDryrun = true) :
    (contribution E c fl g i p).updateCalls = [] ∧
    (contribution E c fl g i p).succShortArray = [] ∧
    (contribution E c fl g i p).succVerboseArray = [] ∧
    ((mutate (c.enableSet || c.disableSet) g.dcEnabled fl p).2 = true →
      (contribution E c fl g i p).marshalCalls = [i] ∧
      (∀ e, E.MarshalIndent (mutate (c.enableSet || c.disableSet) g.dcEnabled fl p).1
          = Except.error e →
        (contribution E c fl g i p).failedArray = [(i, ⟨p.Name, e⟩)] ∧
        (contribution E c fl g i p).dryrunArray = []) ∧
      (∀ js, E.MarshalIndent (mutate (c.enableSet || c.disableSet) g.dcEnabled fl p).1
          = Except.ok js →
        (contribution E c fl g i p).dryrunArray = [(i, js)] ∧
        (contribution E c fl g i p).failedArray = [])) := by
  have hn : (mutate (c.enableSet || c.disableSet) g.dcEnabled fl p).1.Name = p.Name := rfl
  by_cases hm : (mutate (c.enableSet || c.disableSet) g.dcEnabled fl p).2 = true
  · cases hM : E.MarshalIndent (mutate (c.enableSet || c.disableSet) g.dcEnabled fl p).1 with
    | error e => simp [contribution, propertyStep, clearAccum, hm, hd, hM, hn]
    | ok js => simp [contribution, propertyStep, clearAccum, hm, hd, hM, hn]
  · simp [contribution, propertyStep, clearAccum, hm, hd]

/-! ## The pass started on empty accumulators -/

lemma fresh_lists (g : Globals) (h : clearAccum g = g) :
    g.succShortArray = [] ∧ g.succVerboseArray = [] ∧ g.failedArray = [] ∧
    g.dryrunArray = [] ∧ g.updateCalls = [] ∧ g.marshalCalls = [] := by
  refine ⟨?_, ?_, ?_, ?_, ?_, ?_⟩
  · exact (congrArg Globals.succShortArray h).symm
  · exact (congrArg Globals.succVerboseArray h).symm
  · exact (congrArg Globals.failedArray h).symm
  · exact (congrArg Globals.dryrunArray h).symm
  · exact (congrArg Globals.updateCalls h).symm
  · exact (congrArg Globals.marshalCalls h).symm

lemma fresh_pass (E : Env) (c : Flags) (fl : List Int) (g : Globals)
    (h : clearAccum g = g) (ps : List Property) :
    (updatePass E c fl 0 ps g).2.succShortArray
      = gather (fun j q => (contribution E c fl g j q).succShortArray) 0 ps ∧
    (updatePass E c fl 0 ps g).2.succVerboseArray
      = gather (fun j q => (contribution E c fl g j q).succVerboseArray) 0 ps ∧
    (updatePass E c fl 0 ps g).2.failedArray
      = gather (fun j q => (contribution E c fl g j q).failedArray) 0 ps ∧
    (updatePass E c fl 0 ps g).2.dryrunArray
      = gather (fun j q => (contribution E c fl g j q).dryrunArray) 0 ps ∧
    (updatePass E c fl 0 ps g).2.updateCalls
      = gather (fun j q => (contribution E c fl g j q).updateCalls) 0 ps ∧
    (updatePass E c fl 0 ps g).2.marshalCalls
      = gather (fun j q => (contribution E c fl g j q).marshalCalls) 0 ps := by
  obtain ⟨_, h1, h2, h3, h4, h5, h6⟩ := pass_lists E c fl ps 0 g
  obtain ⟨e1, e2, e3, e4, e5, e6⟩ := fresh_lists g h
  rw [h1, h2, h3, h4, h5, h6, e1, e2, e3, e4, e5, e6]
  simp

lemma gather_at {β : Type} (tag : β → Nat) (f : Nat → Property → List β)
    (hf : ∀ j q, ∀ e ∈ f j q, tag e = j) (ps : List Property) (j : Nat) :
    (gather f 0 ps).filter (fun e => decide (tag e = j))
      = match ps[j]? with
        | some q => f j q
        | none => [] := by
  have h := gather_filter tag f hf ps 0 j
  simpa using h

lemma count_tags {β : Type} (tag : β → Nat) (j : Nat) (l : List β) :
    List.count j (l.map tag) = (l.filter (fun e => decide (tag e = j))).length := by
  induction l with
  | nil => simp
  | cons a l ih =>
    by_cases h : tag a = j
    · simp [List.filter_cons, h, ih]
    · simp [List.filter_cons, h, ih, List.count_cons]

lemma clean_no_entries (E : Env) (c : Flags) (fl : List Int) (g : Globals)
    (ps : List Property) (j : Nat) (p : Property) (hempty : clearAccum g = g)
    (hj : ps[j]? = some p)
    (hclean : (mutate (c.enableSet || c.disableSet) g.dcEnabled fl p).2 = false) :
    (∀ e ∈ (updatePass E c fl 0 ps g).2.succShortArray, e.1 ≠ j) ∧
    (∀ e ∈ (updatePass E c fl 0 ps g).2.succVerboseArray, e.1 ≠ j) ∧
    (∀ e ∈ (updatePass E c fl 0 ps g).2.failedArray, e.1 ≠ j) ∧
    (∀ e ∈ (updatePass E c fl 0 ps g).2.dryrunArray, e.1 ≠ j) ∧
    j ∉ (updatePass E c fl 0 ps g).2.updateCalls ∧
    j ∉ (updatePass E c fl 0 ps g).2.marshalCalls := by
  obtain ⟨h1, h2, h3, h4, h5, h6⟩ := fresh_pass E c fl g hempty ps
  have hc := contribution_clean E c fl g j p hclean
  have ht := fun i q => contribution_tags E c fl g i q
  have key : ∀ {β : Type} (tag : β → Nat) (f : Nat → Property → List β),
      (∀ i q, ∀ e ∈ f i q, tag e = i) → f j p = [] →
      ∀ e ∈ gather f 0 ps, tag e ≠ j := by
    intro β tag f hf hnil e he hte
    have hmem : e ∈ (gather f 0 ps).filter (fun e => decide (tag e = j)) := by
      simp [List.mem_filter, he, hte]
    rw [gather_at tag f hf ps j, hj] at hmem
    simp [hnil] at hmem
  rw [h1, h2, h3, h4, h5, h6]
  refine ⟨?_, ?_, ?_, ?_, ?_, ?_⟩
  · exact key Prod.fst _ (fun i q => (ht i q).1.1) (by simp [hc, clearAccum])
  · exact key Prod.fst _ (fun i q => (ht i q).2.1.1) (by simp [hc, clearAccum])
  · exact key Prod.fst _ (fun i q => (ht i q).2.2.1.1) (by simp [hc, clearAccum])
  · exact key Prod.fst _ (fun i q => (ht i q).2.2.2.1.1) (by simp [hc, clearAccum])
  · intro hmem
    exact key id _ (fun i q => (ht i q).2.2.2.2.1.1) (by simp [hc, clearAccum]) j hmem rfl
  · intro hmem
    exact key id _ (fun i q => (ht i q).2.2.2.2.2.1) (by simp [hc, clearAccum]) j hmem rfl

/-! ## Properties the pass skips -/

/-- C1. Started on empty accumulators, the pass over the properties records
nothing for a property none of whose traffic targets has a requested datacenter
id: no entry of the short or verbose success list, of the failure list or of the
dry-run list comes from its position, and `Update` is not called on it; this for
every domain, id list, option setting and collaborator. -/
theorem unmatched_property_skipped (E : Env) (c : Flags) (flagList : List Int)
    (g : Globals) (ps : List Property) (j : Nat) (p : Property)
    (hempty : clearAccum g = g) (hj : ps[j]? = some p)
    (hno : ∀ t ∈ p.TrafficTargets, t.DatacenterId ∉ flagList) :
    (∀ e ∈ (updatePass E c flagList 0 ps g).2.succShortArray, e.1 ≠ j) ∧
    (∀ e ∈ (updatePass E c flagList 0 ps g).2.succVerboseArray, e.1 ≠ j) ∧
    (∀ e ∈ (updatePass E c flagList 0 ps g).2.failedArray, e.1 ≠ j) ∧
    (∀ e ∈ (updatePass E c flagList 0 ps g).2.dryrunArray, e.1 ≠ j) ∧
    j ∉ (updatePass E c flagList 0 ps g).2.updateCalls := by
  have hclean := mutate_clean (c.enableSet || c.disableSet) g.dcEnabled flagList p
    (fun t ht hm => absurd hm (hno t ht))
  obtain ⟨h1, h2, h3, h4, h5, _⟩ :=
    clean_no_entries E c flagList g ps j p hempty hj (by rw [hclean])
  exact ⟨h1, h2, h3, h4, h5⟩

/-- C1 at the sample run: the third property has no target in datacenter 7. -/
theorem unmatched_property_skipped_witness :
    (clearAccum sampleGlobals = sampleGlobals ∧
      sampleProperties[2]? = some ⟨"cdn", [⟨9, "south", true⟩]⟩ ∧
      ∀ t ∈ (Property.mk "cdn" [⟨9, "south", true⟩]).TrafficTargets,
        t.DatacenterId ∉ [(7 : Int)]) ∧
    ((∀ e ∈ (updatePass sampleEnv sampleFlags [7] 0 sampleProperties
        sampleGlobals).2.succShortArray, e.1 ≠ 2) ∧
    (∀ e ∈ (updatePass sampleEnv sampleFlags [7] 0 sampleProperties
        sampleGlobals).2.succVerboseArray, e.1 ≠ 2) ∧
    (∀ e ∈ (updatePass sampleEnv sampleFlags [7] 0 sampleProperties
        sampleGlobals).2.failedArray, e.1 ≠ 2) ∧
    (∀ e ∈ (updatePass sampleEnv sampleFlags [7] 0 sampleProperties
        sampleGlobals).2.dryrunArray, e.1 ≠ 2) ∧
    2 ∉ (updatePass sampleEnv sampleFlags [7] 0 sampleProperties
        sampleGlobals).2.updateCalls) :=
  ⟨⟨rfl, rfl, by decide⟩,
    unmatched_property_skipped sampleEnv sampleFlags [7] sampleGlobals sampleProperties 2
      ⟨"cdn", [⟨9, "south", true⟩]⟩ rfl rfl (by decide)⟩

/-- C2. A traffic target whose `Enabled` already has the requested value (its
datacenter id may be among the requested ids) comes out of the loop over the
requested ids unchanged and with `changes_made` as it was; and for a property all of whose
targets with a requested id are in that state, the loop iteration changes neither
the property nor any global (so it is not dirty), and the pass, started on empty
accumulators, never calls `Update` or the encoder on it and records no entry
from its position. -/
theorem settled_targets_untouched (E : Env) (c : Flags) (flagList : List Int)
    (g : Globals) (ps : List Property) (j : Nat) (p : Property) (t : TrafficTarget)
    (changes_made : Bool) (hte : t.Enabled = g.dcEnabled)
    (hempty : clearAccum g = g) (hj : ps[j]? = some p)
    (hall : ∀ u ∈ p.TrafficTargets, u.DatacenterId ∈ flagList → u.Enabled = g.dcEnabled) :
    scanIds (c.enableSet || c.disableSet) g.dcEnabled flagList t changes_made
      = (t, changes_made) ∧
    (mutate (c.enableSet || c.disableSet) g.dcEnabled flagList p).2 = false ∧
    propertyStep E c flagList j p g = (p, g) ∧
    (∀ e ∈ (updatePass E c flagList 0 ps g).2.succShortArray, e.1 ≠ j) ∧
    (∀ e ∈ (updatePass E c flagList 0 ps g).2.succVerboseArray, e.1 ≠ j) ∧
    (∀ e ∈ (updatePass E c flagList 0 ps g).2.failedArray, e.1 ≠ j) ∧
    (∀ e ∈ (updatePass E c flagList 0 ps g).2.dryrunArray, e.1 ≠ j) ∧
    j ∉ (updatePass E c flagList 0 ps g).2.updateCalls ∧
    j ∉ (updatePass E c flagList 0 ps g).2.marshalCalls := by
  have hclean := mutate_clean (c.enableSet || c.disableSet) g.dcEnabled flagList p hall
  refine ⟨?_, by rw [hclean], ?_,
    clean_no_entries E c flagList g ps j p hempty hj (by rw [hclean])⟩
  · rw [scanIds_eq]
    have hw : wanted (c.enableSet || c.disableSet) g.dcEnabled flagList t = t.Enabled := by
      unfold wanted
      split <;> simp [hte]
    rw [hw]
    simp
  · simp [propertyStep, hclean]

/-- C2 at a domain whose only property is already disabled in datacenter 7. -/
theorem settled_targets_untouched_witness :
    ((TrafficTarget.mk 7 "east" false).Enabled = sampleGlobals.dcEnabled ∧
      clearAccum sampleGlobals = sampleGlobals ∧
      [Property.mk "www" [⟨7, "east", false⟩, ⟨8, "west", true⟩]][0]?
        = some ⟨"www", [⟨7, "east", false⟩, ⟨8, "west", true⟩]⟩ ∧
      ∀ u ∈ (Property.mk "www" [⟨7, "east", false⟩, ⟨8, "west", true⟩]).TrafficTargets,
        u.DatacenterId ∈ [(7 : Int)] → u.Enabled = sampleGlobals.dcEnabled) ∧
    propertyStep sampleEnv sampleFlags [7] 0
      ⟨"www", [⟨7, "east", false⟩, ⟨8, "west", true⟩]⟩ sampleGlobals
      = (⟨"www", [⟨7, "east", false⟩, ⟨8, "west", true⟩]⟩, sampleGlobals) :=
  ⟨⟨rfl, rfl, rfl, by decide⟩,
    (settled_targets_untouched sampleEnv sampleFlags [7] sampleGlobals
      [⟨"www", [⟨7, "east", false⟩, ⟨8, "west", true⟩]⟩] 0
      ⟨"www", [⟨7, "east", false⟩, ⟨8, "west", true⟩]⟩ ⟨7, "east", false⟩ false
      rfl rfl rfl (by decide)).2.2.1⟩

/-! ## Dry-run and live mode -/

lemma gather_nil {β : Type} (f : Nat → Property → List β) (hf : ∀ j q, f j q = [])
    (ps : List Property) : ∀ (i : Nat), gather f i ps = [] := by
  induction ps with
  | nil => intro i; rfl
  | cons p ps ih => intro i; simp [gather, hf, ih]

lemma mutate_changed_iff (fs v : Bool) (fl : List Int) (p : Property) :
    (mutate fs v fl p).2 = true ↔ (mutate fs v fl p).1 ≠ p := by
  constructor
  · intro h hp
    rw [mutate_eq] at h hp
    simp only [List.any_eq_true] at h
    obtain ⟨t, ht, hne⟩ := h
    have hts : p.TrafficTargets.map (fun t => { t with Enabled := wanted fs v fl t })
        = p.TrafficTargets := congrArg Property.TrafficTargets hp
    obtain ⟨i, hi⟩ := List.getElem?_of_mem ht
    have h2 := congrArg (fun l => l[i]?) hts
    simp only [List.getElem?_map, hi, Option.map_some', Option.some.injEq] at h2
    have h3 := congrArg TrafficTarget.Enabled h2
    simp only at h3
    rw [h3] at hne
    simp at hne
  · intro h
    by_contra hc
    have hf : (mutate fs v fl p).2 = false := by simpa using hc
    apply h
    have hw : ∀ t ∈ p.TrafficTargets, t.Enabled = wanted fs v fl t := by
      rw [mutate_eq] at hf
      simp only [List.any_eq_false] at hf
      intro t ht
      simpa using hf t ht
    rw [mutate_eq]
    have h1 : p.TrafficTargets.map (fun t => { t with Enabled := wanted fs v fl t })
        = p.TrafficTargets := by
      conv_rhs => rw [← List.map_id p.TrafficTargets]
      apply List.map_congr_left
      intro t ht
      simp [← hw t ht]
    simp only [h1]

/-- C3. In dry-run mode the pass over the properties, started on empty
accumulators, never calls `Property.Update` and leaves both success lists empty,
for every domain and id list. A property the mutator changed contributes exactly
one item: the encoder's output, appended to the dry-run list, or, if the encoder
fails, a failure record with the property's name and the encoder's error; a
property the mutator did not change contributes nothing. -/
theorem dryrun_never_updates (E : Env) (c : Flags) (flagList : List Int)
    (g : Globals) (ps : List Property)
    (hempty : clearAccum g = g) (hdry : g.dcDryrun = true) :
    (updatePass E c flagList 0 ps g).2.updateCalls = [] ∧
    (updatePass E c flagList 0 ps g).2.succShortArray = [] ∧
    (updatePass E c flagList 0 ps g).2.succVerboseArray = [] ∧
    ∀ (j : Nat) (p : Property), ps[j]? = some p →
      ((mutate (c.enableSet || c.disableSet) g.dcEnabled flagList p).2 = false →
        (updatePass E c flagList 0 ps g).2.dryrunArray.filter (fun e => decide (e.1 = j)) = [] ∧
        (updatePass E c flagList 0 ps g).2.failedArray.filter (fun e => decide (e.1 = j)) = []) ∧
      ((mutate (c.enableSet || c.disableSet) g.dcEnabled flagList p).2 = true →
        (∀ js, E.MarshalIndent (mutate (c.enableSet || c.disableSet) g.dcEnabled flagList p).1
            = Except.ok js →
          (updatePass E c flagList 0 ps g).2.dryrunArray.filter (fun e => decide (e.1 = j))
            = [(j, js)] ∧
          (updatePass E c flagList 0 ps g).2.failedArray.filter (fun e => decide (e.1 = j))
            = []) ∧
        (∀ msg, E.MarshalIndent (mutate (c.enableSet || c.disableSet) g.dcEnabled flagList p).1
            = Except.error msg →
          (updatePass E c flagList 0 ps g).2.failedArray.filter (fun e => decide (e.1 = j))
            = [(j, ⟨p.Name, msg⟩)] ∧
          (updatePass E c flagList 0 ps g).2.dryrunArray.filter (fun e => decide (e.1 = j))
            = [])) := by
  obtain ⟨h1, h2, h3, h4, h5, _⟩ := fresh_pass E c flagList g hempty ps
  have hd := fun i q => contribution_dry E c flagList g i q hdry
  have ht := fun i q => contribution_tags E c flagList g i q
  refine ⟨?_, ?_, ?_, ?_⟩
  · rw [h5]; exact gather_nil _ (fun i q => (hd i q).1) ps 0
  · rw [h1]; exact gather_nil _ (fun i q => (hd i q).2.1) ps 0
  · rw [h2]; exact gather_nil _ (fun i q => (hd i q).2.2.1) ps 0
  · intro j p hj
    have e4 := gather_at Prod.fst (fun j q => (contribution E c flagList g j q).dryrunArray)
      (fun i q => (ht i q).2.2.2.1.1) ps j
    have e3 := gather_at Prod.fst (fun j q => (contribution E c flagList g j q).failedArray)
      (fun i q => (ht i q).2.2.1.1) ps j
    rw [hj] at e3 e4
    simp only at e3 e4
    rw [h3, h4, e3, e4]
    constructor
    · intro hm
      rw [contribution_clean E c flagList g j p hm]
      simp [clearAccum]
    · intro hm
      obtain ⟨_, herr, hok⟩ := (hd j p).2.2.2 hm
      exact ⟨fun js hjs => hok js hjs, fun msg hmsg => herr msg hmsg⟩

/-- C3 at the sample run in dry-run mode. -/
theorem dryrun_never_updates_witness :
    (clearAccum sampleDryGlobals = sampleDryGlobals ∧ sampleDryGlobals.dcDryrun = true) ∧
    (updatePass sampleEnv sampleDryFlags [7] 0 sampleProperties sampleDryGlobals).2.updateCalls
      = [] ∧
    (updatePass sampleEnv sampleDryFlags [7] 0 sampleProperties
      sampleDryGlobals).2.succShortArray = [] ∧
    (updatePass sampleEnv sampleDryFlags [7] 0 sampleProperties
      sampleDryGlobals).2.succVerboseArray = [] :=
  ⟨⟨rfl, rfl⟩,
    (dryrun_never_updates sampleEnv sampleDryFlags [7] sampleDryGlobals sampleProperties
      rfl rfl).1,
    (dryrun_never_updates sampleEnv sampleDryFlags [7] sampleDryGlobals sampleProperties
      rfl rfl).2.1,
    (dryrun_never_updates sampleEnv sampleDryFlags [7] sampleDryGlobals sampleProperties
      rfl rfl).2.2.1⟩

/-- C8. In live mode, started on empty accumulators, the pass records for every
position of the property list exactly one entry, in exactly one of the short
success list, the verbose success list and the failure list, and calls `Update`
on it exactly once, if the mutator changed the property there (some target was
toggled), and records no entry and makes no call for it otherwise; nothing is
recorded for a position outside the list; the calls and the entries of each list
are in the order of the properties; the dry-run list stays empty. A failed
`Update` therefore stops neither the attempt on nor the record for any later
property. -/
theorem live_one_outcome_each (E : Env) (c : Flags) (flagList : List Int)
    (g : Globals) (ps : List Property)
    (hempty : clearAccum g = g) (hlive : g.dcDryrun = false) :
    (∀ (j : Nat) (p : Property), ps[j]? = some p →
      List.count j ((updatePass E c flagList 0 ps g).2.succShortArray.map Prod.fst) +
        List.count j ((updatePass E c flagList 0 ps g).2.succVerboseArray.map Prod.fst) +
        List.count j ((updatePass E c flagList 0 ps g).2.failedArray.map Prod.fst)
        = (if (mutate (c.enableSet || c.disableSet) g.dcEnabled flagList p).1 ≠ p then 1 else 0) ∧
      List.count j (updatePass E c flagList 0 ps g).2.updateCalls
        = (if (mutate (c.enableSet || c.disableSet) g.dcEnabled flagList p).1 ≠ p then 1 else 0)) ∧
    (∀ (j : Nat), ps.length ≤ j →
      List.count j ((updatePass E c flagList 0 ps g).2.succShortArray.map Prod.fst) = 0 ∧
      List.count j ((updatePass E c flagList 0 ps g).2.succVerboseArray.map Prod.fst) = 0 ∧
      List.count j ((updatePass E c flagList 0 ps g).2.failedArray.map Prod.fst) = 0 ∧
      List.count j (updatePass E c flagList 0 ps g).2.updateCalls = 0) ∧
    (updatePass E c flagList 0 ps g).2.updateCalls.Pairwise (fun a b => a < b) ∧
    ((updatePass E c flagList 0 ps g).2.succShortArray.map Prod.fst).Pairwise
      (fun a b => a < b) ∧
    ((updatePass E c flagList 0 ps g).2.succVerboseArray.map Prod.fst).Pairwise
      (fun a b => a < b) ∧
    ((updatePass E c flagList 0 ps g).2.failedArray.map Prod.fst).Pairwise
      (fun a b => a < b) ∧
    (updatePass E c flagList 0 ps g).2.dryrunArray = [] := by
  obtain ⟨h1, h2, h3, h4, h5, _⟩ := fresh_pass E c flagList g hempty ps
  have ht := fun i q => contribution_tags E c flagList g i q
  have a1 := gather_at Prod.fst (fun j q => (contribution E c flagList g j q).succShortArray)
    (fun i q => (ht i q).1.1) ps
  have a2 := gather_at Prod.fst (fun j q => (contribution E c flagList g j q).succVerboseArray)
    (fun i q => (ht i q).2.1.1) ps
  have a3 := gather_at Prod.fst (fun j q => (contribution E c flagList g j q).failedArray)
    (fun i q => (ht i q).2.2.1.1) ps
  have a5 := gather_at id (fun j q => (contribution E c flagList g j q).updateCalls)
    (fun i q => (ht i q).2.2.2.2.1.1) ps
  have c5 : ∀ j, List.count j (updatePass E c flagList 0 ps g).2.updateCalls
      = ((updatePass E c flagList 0 ps g).2.updateCalls.filter
          (fun e => decide (id e = j))).length := by
    intro j
    have := count_tags id j (updatePass E c flagList 0 ps g).2.updateCalls
    simpa using this
  refine ⟨?_, ?_, ?_, ?_, ?_, ?_, ?_⟩
  · intro j p hj
    rw [count_tags, count_tags, count_tags, c5, h1, h2, h3, h5, a1, a2, a3, a5, hj]
    simp only
    by_cases hm : (mutate (c.enableSet || c.disableSet) g.dcEnabled flagList p).2 = true
    · have hne := (mutate_changed_iff _ _ _ _).1 hm
      rw [if_pos hne]
      obtain ⟨hu, _, _, herr, hok⟩ := contribution_live E c flagList g j p hlive hm
      rw [hu]
      cases hU : E.Update j (mutate (c.enableSet || c.disableSet) g.dcEnabled flagList p).1
          c.domainName with
      | error e =>
        obtain ⟨e1, e2, e3⟩ := herr e hU
        rw [e1, e2, e3]
        simp
      | ok stat =>
        obtain ⟨e1, e2, e3⟩ := hok stat hU
        rw [e1, e2, e3]
        split_ifs <;> simp
    · have hf : (mutate (c.enableSet || c.disableSet) g.dcEnabled flagList p).2 = false := by
        simpa using hm
      have hne : ¬ (mutate (c.enableSet || c.disableSet) g.dcEnabled flagList p).1 ≠ p :=
        fun h => hm ((mutate_changed_iff _ _ _ _).2 h)
      rw [if_neg hne, contribution_clean E c flagList g j p hf]
      simp [clearAccum]
  · intro j hj
    have hnone : ps[j]? = none := by simpa using hj
    rw [count_tags, count_tags, count_tags, c5, h1, h2, h3, h5, a1, a2, a3, a5, hnone]
    simp
  · rw [h5]
    have := gather_pairwise id (fun j q => (contribution E c flagList g j q).updateCalls)
      (fun i q => (ht i q).2.2.2.2.1.1) (fun i q => (ht i q).2.2.2.2.1.2) ps 0
    simpa using this
  · rw [h1]
    exact gather_pairwise Prod.fst _ (fun i q => (ht i q).1.1) (fun i q => (ht i q).1.2) ps 0
  · rw [h2]
    exact gather_pairwise Prod.fst _ (fun i q => (ht i q).2.1.1) (fun i q => (ht i q).2.1.2) ps 0
  · rw [h3]
    exact gather_pairwise Prod.fst _ (fun i q => (ht i q).2.2.1.1)
      (fun i q => (ht i q).2.2.1.2) ps 0
  · rw [h4]
    apply gather_nil
    intro i q
    by_cases hm : (mutate (c.enableSet || c.disableSet) g.dcEnabled flagList q).2 = true
    · exact (contribution_live E c flagList g i q hlive hm).2.2.1
    · have hf : (mutate (c.enableSet || c.disableSet) g.dcEnabled flagList q).2 = false := by
        simpa using hm
      rw [contribution_clean E c flagList g i q hf]
      simp [clearAccum]

/-- C8 at the sample run: the first update fails, the second succeeds. -/
theorem live_one_outcome_each_witness :
    (clearAccum sampleGlobals = sampleGlobals ∧ sampleGlobals.dcDryrun = false) ∧
    (updatePass sampleEnv sampleFlags [7] 0 sampleProperties
      sampleGlobals).2.updateCalls.Pairwise (fun a b => a < b) ∧
    (updatePass sampleEnv sampleFlags [7] 0 sampleProperties sampleGlobals).2.dryrunArray
      = [] :=
  ⟨⟨rfl, rfl⟩,
    (live_one_outcome_each sampleEnv sampleFlags [7] sampleGlobals sampleProperties
      rfl rfl).2.2.1,
    (live_one_outcome_each sampleEnv sampleFlags [7] sampleGlobals sampleProperties
      rfl rfl).2.2.2.2.2.2⟩

/-! ## The completion poller -/

lemma wrapInt64_id (x : Int) (h1 : -2 ^ 63 ≤ x) (h2 : x < 2 ^ 63) : wrapInt64 x = x := by
  unfold wrapInt64
  omega

lemma wrapInt64_range (x : Int) : -2 ^ 63 ≤ wrapInt64 x ∧ wrapInt64 x < 2 ^ 63 := by
  unfold wrapInt64
  omega

lemma poll_rounds (status : Nat → Except String String) (si : Int)
    (hsi : 1 ≤ si) (hsi2 : si < 2 ^ 63) :
    ∀ (m fuel k : Nat) (v : Int) (tr : List PollEvent),
      v < 2 ^ 63 → (m : Int) * si < v →
      (∀ j, j < m → ∃ s, status (k + j) = Except.ok s ∧ s ≠ "COMPLETE" ∧ s ≠ "DENIED") →
      pollLoop status si (fuel + m) k v tr
        = pollLoop status si fuel (k + m) (v - m * si)
            (tr ++ rounds (wrapInt64 (si * 1000000000)) m) := by
  intro m
  induction m with
  | zero => intro fuel k v tr _ _ _; simp [rounds]
  | succ m ih =>
    intro fuel k v tr hv hpos hst
    obtain ⟨s, hs, hc, hd⟩ := hst 0 (by omega)
    have hmsi : 0 ≤ (m : Int) * si := by positivity
    have hexp : ((m + 1 : Nat) : Int) * si = (m : Int) * si + si := by push_cast; ring
    rw [hexp] at hpos
    have hw : wrapInt64 (v - si) = v - si := wrapInt64_id _ (by omega) (by omega)
    have hnot : ¬ (v - si ≤ 0) := by omega
    have hfuel : fuel + (m + 1) = (fuel + m) + 1 := by omega
    rw [hfuel]
    simp only [pollLoop]
    rw [Nat.add_zero] at hs
    rw [hs]
    simp only [hw, if_neg hc, if_neg hd, if_neg hnot]
    rw [ih fuel (k + 1) (v - si) _ (by omega) (by omega)
      (fun j hj => by
        have := hst (j + 1) (by omega)
        rwa [show k + (j + 1) = k + 1 + j by omega] at this)]
    have e1 : k + 1 + m = k + (m + 1) := by omega
    have e2 : v - si - (m : Int) * si = v - ((m + 1 : Nat) : Int) * si := by
      rw [hexp]; omega
    rw [e1, e2]
    simp [rounds]

lemma count_query_rounds (ns : Int) (m : Nat) :
    List.count PollEvent.query (rounds ns m) = m := by
  induction m with
  | zero => simp [rounds]
  | succ m ih => simp [rounds, List.count_cons, ih]

lemma ceil_spec (T I : Int) (hI : 0 < I) :
    (⌈(T : ℚ) / (I : ℚ)⌉ - 1) * I < T ∧ T ≤ ⌈(T : ℚ) / (I : ℚ)⌉ * I := by
  have hIq : (0 : ℚ) < (I : ℚ) := by exact_mod_cast hI
  have h1 := Int.le_ceil ((T : ℚ) / (I : ℚ))
  have h2 := Int.ceil_lt_add_one ((T : ℚ) / (I : ℚ))
  constructor
  · have h3 : ((⌈(T : ℚ) / (I : ℚ)⌉ : ℚ) - 1) * (I : ℚ) < (T : ℚ) := by
      have : (⌈(T : ℚ) / (I : ℚ)⌉ : ℚ) - 1 < (T : ℚ) / (I : ℚ) := by linarith
      calc ((⌈(T : ℚ) / (I : ℚ)⌉ : ℚ) - 1) * (I : ℚ) < (T : ℚ) / (I : ℚ) * (I : ℚ) :=
            mul_lt_mul_of_pos_right this hIq
        _ = (T : ℚ) := div_mul_cancel₀ _ (ne_of_gt hIq)
    exact_mod_cast h3
  · have h3 : (T : ℚ) ≤ (⌈(T : ℚ) / (I : ℚ)⌉ : ℚ) * (I : ℚ) := by
      calc (T : ℚ) = (T : ℚ) / (I : ℚ) * (I : ℚ) := (div_mul_cancel₀ _ (ne_of_gt hIq)).symm
        _ ≤ (⌈(T : ℚ) / (I : ℚ)⌉ : ℚ) * (I : ℚ) :=
            mul_le_mul_of_nonneg_right h1 (le_of_lt hIq)
    exact_mod_cast h3

/-- C6. If the first `n - 1` status queries answer with a status other than
`COMPLETE` and `DENIED`, the `n`-th answers `COMPLETE`, the interval is at least
1 and `(n - 1) * interval` is less than the timeout (interval and timeout being
64-bit values), then the wait loop, given room for `n` iterations, stops in the
complete branch after exactly `n` calls of `GetDomainStatus`. -/
theorem poller_completes (status : Nat → Except String String) (n : Nat)
    (interval timeout : Int) (fuel : Nat)
    (hn : 1 ≤ n) (hi : 1 ≤ interval) (hi64 : interval < 2 ^ 63) (ht64 : timeout < 2 ^ 63)
    (hbudget : ((n : Int) - 1) * interval < timeout)
    (hpending : ∀ k, k + 1 < n →
      ∃ s, status k = Except.ok s ∧ s ≠ "COMPLETE" ∧ s ≠ "DENIED")
    (hcomplete : status (n - 1) = Except.ok "COMPLETE") (hfuel : n ≤ fuel) :
    ∃ r, poller status interval timeout fuel = some r ∧
      r.state = PollState.complete ∧ r.queries = n ∧
      List.count PollEvent.query r.trace = n := by
  obtain ⟨m, rfl⟩ : ∃ m, n = m + 1 := ⟨n - 1, by omega⟩
  obtain ⟨f, rfl⟩ : ∃ f, fuel = (f + 1) + m := ⟨fuel - (m + 1), by omega⟩
  have hb : (m : Int) * interval < timeout := by
    have : ((m + 1 : Nat) : Int) - 1 = (m : Int) := by push_cast; ring
    rwa [this] at hbudget
  have hm0 : 0 ≤ (m : Int) * interval := by positivity
  have hwi : wrapInt64 (1 * wrapInt64 interval) = interval := by
    rw [wrapInt64_id interval (by omega) hi64, one_mul,
      wrapInt64_id interval (by omega) hi64]
  have hwt : wrapInt64 (1 * wrapInt64 timeout) = timeout := by
    rw [wrapInt64_id timeout (by omega) ht64, one_mul,
      wrapInt64_id timeout (by omega) ht64]
  unfold poller
  rw [hwi, hwt, poll_rounds status interval hi hi64 m (f + 1) 0 timeout [] ht64 hb
    (fun j hj => by
      have := hpending j (by omega)
      simpa using this)]
  simp only [Nat.add_sub_cancel, Nat.zero_add] at hcomplete ⊢
  simp only [pollLoop, hcomplete, if_true]
  refine ⟨_, rfl, rfl, rfl, ?_⟩
  simp only [List.nil_append, List.count_append, count_query_rounds]
  simp [List.count_cons]

/-- C6 at the answers `PENDING`, `PENDING`, `COMPLETE` with interval 1 and
timeout 10: exactly 3 queries, stopping in the complete branch. -/
theorem poller_completes_witness :
    (1 ≤ 3 ∧ (1 : Int) ≤ 1 ∧ (1 : Int) < 2 ^ 63 ∧ (10 : Int) < 2 ^ 63 ∧
      (((3 : Nat) : Int) - 1) * 1 < 10 ∧
      (∀ k, k + 1 < 3 → ∃ s, statusFrom ["PENDING", "PENDING", "COMPLETE"] k = Except.ok s ∧
        s ≠ "COMPLETE" ∧ s ≠ "DENIED") ∧
      statusFrom ["PENDING", "PENDING", "COMPLETE"] (3 - 1) = Except.ok "COMPLETE" ∧
      3 ≤ 3) ∧
    ∃ r, poller (statusFrom ["PENDING", "PENDING", "COMPLETE"]) 1 10 3 = some r ∧
      r.state = PollState.complete ∧ r.queries = 3 ∧
      List.count PollEvent.query r.trace = 3 :=
  have hp : ∀ k, k + 1 < 3 → ∃ s, statusFrom ["PENDING", "PENDING", "COMPLETE"] k
      = Except.ok s ∧ s ≠ "COMPLETE" ∧ s ≠ "DENIED" := by
    intro k hk
    have hk2 : k = 0 ∨ k = 1 := by omega
    rcases hk2 with rfl | rfl <;> exact ⟨"PENDING", rfl, by decide, by decide⟩
  ⟨⟨by decide, by decide, by decide, by decide, by decide, hp, rfl, by decide⟩,
    poller_completes (statusFrom ["PENDING", "PENDING", "COMPLETE"]) 3 1 10 3
      (by decide) (by decide) (by decide) (by decide) (by decide) hp rfl (by decide)⟩

/-- C7. If every status query succeeds with a status other than `COMPLETE` and
`DENIED`, and interval and timeout are at least 1 (and 64-bit values), then the
wait loop, given room for that many iterations, stops in the timed-out branch
after exactly `⌈timeout / interval⌉` iterations, each with one status query. -/
theorem poller_times_out (status : Nat → Except String String)
    (interval timeout : Int) (fuel : Nat)
    (hi : 1 ≤ interval) (hi64 : interval < 2 ^ 63)
    (ht : 1 ≤ timeout) (ht64 : timeout < 2 ^ 63)
    (hpending : ∀ k, ∃ s, status k = Except.ok s ∧ s ≠ "COMPLETE" ∧ s ≠ "DENIED")
    (hfuel : (⌈(timeout : ℚ) / (interval : ℚ)⌉).toNat ≤ fuel) :
    ∃ r, poller status interval timeout fuel = some r ∧
      r.state = PollState.timedOut ∧
      r.queries = (⌈(timeout : ℚ) / (interval : ℚ)⌉).toNat ∧
      List.count PollEvent.query r.trace = (⌈(timeout : ℚ) / (interval : ℚ)⌉).toNat := by
  obtain ⟨hc1, hc2⟩ := ceil_spec timeout interval (by omega)
  generalize ⌈(timeout : ℚ) / (interval : ℚ)⌉ = N at hc1 hc2 hfuel ⊢
  have hN : 1 ≤ N := by
    by_contra hcon
    have : N * interval ≤ 0 := by nlinarith
    omega
  obtain ⟨m, hm⟩ : ∃ m : Nat, N = (m : Int) + 1 := ⟨(N - 1).toNat, by omega⟩
  subst hm
  have htn : ((m : Int) + 1).toNat = m + 1 := by omega
  rw [htn] at hfuel ⊢
  obtain ⟨f, rfl⟩ : ∃ f, fuel = (f + 1) + m := ⟨fuel - (m + 1), by omega⟩
  have hb : (m : Int) * interval < timeout := by
    have : (m : Int) + 1 - 1 = (m : Int) := by ring
    rwa [this] at hc1
  have hwi : wrapInt64 (1 * wrapInt64 interval) = interval := by
    rw [wrapInt64_id interval (by omega) hi64, one_mul,
      wrapInt64_id interval (by omega) hi64]
  have hwt : wrapInt64 (1 * wrapInt64 timeout) = timeout := by
    rw [wrapInt64_id timeout (by omega) ht64, one_mul,
      wrapInt64_id timeout (by omega) ht64]
  unfold poller
  rw [hwi, hwt, poll_rounds status interval hi hi64 m (f + 1) 0 timeout [] ht64 hb
    (fun j _ => hpending (0 + j))]
  obtain ⟨s, hs, hsc, hsd⟩ := hpending (0 + m)
  have hexp : ((m : Int) + 1) * interval = (m : Int) * interval + interval := by ring
  rw [hexp] at hc2
  have hw : wrapInt64 (timeout - (m : Int) * interval - interval)
      = timeout - (m : Int) * interval - interval :=
    wrapInt64_id _ (by omega) (by omega)
  have hle : timeout - (m : Int) * interval - interval ≤ 0 := by omega
  simp only [pollLoop, hs, if_neg hsc, if_neg hsd, hw, if_pos hle]
  refine ⟨_, rfl, rfl, by simp, ?_⟩
  simp only [List.nil_append, List.count_append, count_query_rounds]
  simp [List.count_cons]

/-- C7 at a status that is always `PENDING`, with timeout 2 and interval 1:
exactly 2 iterations, stopping in the timed-out branch. -/
theorem poller_times_out_witness :
    ((1 : Int) ≤ 1 ∧ (1 : Int) < 2 ^ 63 ∧ (1 : Int) ≤ 2 ∧ (2 : Int) < 2 ^ 63 ∧
      (∀ k, ∃ s, statusFrom [] k = Except.ok s ∧ s ≠ "COMPLETE" ∧ s ≠ "DENIED") ∧
      (⌈((2 : Int) : ℚ) / ((1 : Int) : ℚ)⌉).toNat ≤ 2) ∧
    (⌈((2 : Int) : ℚ) / ((1 : Int) : ℚ)⌉).toNat = 2 ∧
    ∃ r, poller (statusFrom []) 1 2 2 = some r ∧
      r.state = PollState.timedOut ∧
      r.queries = (⌈((2 : Int) : ℚ) / ((1 : Int) : ℚ)⌉).toNat ∧
      List.count PollEvent.query r.trace = (⌈((2 : Int) : ℚ) / ((1 : Int) : ℚ)⌉).toNat :=
  have hp : ∀ k, ∃ s, statusFrom [] k = Except.ok s ∧ s ≠ "COMPLETE" ∧ s ≠ "DENIED" :=
    fun _ => ⟨"PENDING", rfl, by decide, by decide⟩
  have hc : (⌈((2 : Int) : ℚ) / ((1 : Int) : ℚ)⌉).toNat = 2 := by
    have h2 : ⌈((2 : Int) : ℚ) / ((1 : Int) : ℚ)⌉ = 2 := by norm_num
    rw [h2]
    rfl
  ⟨⟨by decide, by decide, by decide, by decide, hp, le_of_eq hc⟩, hc,
    poller_times_out (statusFrom []) 1 2 2 (by decide) (by decide) (by decide) (by decide)
      hp (le_of_eq hc)⟩

/-! ## Order of the poller's events -/

lemma sleeps_step (ns : Int) (rest : List PollEvent) (k : Nat) :
    sleepsBeforeQuery (PollEvent.query :: PollEvent.sleep ns :: rest) (k + 1 + 1)
      = (sleepsBeforeQuery rest (k + 1)).map (fun n => n + 1) := by
  simp [sleepsBeforeQuery]

lemma poll_trace (status : Nat → Except String String) (si : Int) :
    ∀ (fuel k : Nat) (v : Int) (tr : List PollEvent) (r : PollResult),
      pollLoop status si fuel k v tr = some r →
      ∃ m, r.queries = k + m + 1 ∧
        (r.trace = tr ++ rounds (wrapInt64 (si * 1000000000)) m ++ [PollEvent.query] ∨
         r.trace = tr ++ rounds (wrapInt64 (si * 1000000000)) (m + 1)) := by
  intro fuel
  induction fuel with
  | zero => intro k v tr r h; simp [pollLoop] at h
  | succ fuel ih =>
    intro k v tr r h
    simp only [pollLoop] at h
    cases hs : status k with
    | error e =>
      rw [hs] at h
      simp only [Option.some.injEq] at h
      subst h
      exact ⟨0, rfl, Or.inl (by simp [rounds])⟩
    | ok s =>
      rw [hs] at h
      simp only at h
      split_ifs at h with h1 h2 h3
      · simp only [Option.some.injEq] at h
        subst h
        exact ⟨0, rfl, Or.inr (by simp [rounds])⟩
      · simp only [Option.some.injEq] at h
        subst h
        exact ⟨0, rfl, Or.inr (by simp [rounds])⟩
      · simp only [Option.some.injEq] at h
        subst h
        exact ⟨0, rfl, Or.inr (by simp [rounds])⟩
      · obtain ⟨m, hq, ht⟩ := ih _ _ _ r h
        refine ⟨m + 1, by omega, ?_⟩
        have hr : ∀ n, rounds (wrapInt64 (si * 1000000000)) (n + 1)
            = [PollEvent.query, PollEvent.sleep (wrapInt64 (si * 1000000000))]
              ++ rounds (wrapInt64 (si * 1000000000)) n := fun _ => rfl
        rcases ht with ht | ht
        · left
          rw [ht, hr m]
          simp
        · right
          rw [ht, hr (m + 1)]
          simp

lemma sleeps_rounds (ns : Int) (tail : List PollEvent) :
    ∀ (m k : Nat), sleepsBeforeQuery (rounds ns m ++ tail) k
      = if k = 0 then none
        else if k ≤ m then some (k - 1)
        else (sleepsBeforeQuery tail (k - m)).map (fun n => n + m) := by
  intro m
  induction m with
  | zero =>
    intro k
    cases k with
    | zero => cases tail <;> simp [rounds, sleepsBeforeQuery]
    | succ k => simp [rounds]
  | succ m ih =>
    intro k
    have hr : rounds ns (m + 1) = [PollEvent.query, PollEvent.sleep ns] ++ rounds ns m := rfl
    rw [hr]
    cases k with
    | zero => simp [sleepsBeforeQuery]
    | succ k =>
      cases k with
      | zero => simp [sleepsBeforeQuery]
      | succ k =>
        show sleepsBeforeQuery (PollEvent.query :: PollEvent.sleep ns :: (rounds ns m ++ tail))
          (k + 1 + 1) = _
        rw [sleeps_step, ih (k + 1)]
        simp only [Nat.add_eq_zero, one_ne_zero, and_false, if_false]
        by_cases hk : k + 1 ≤ m
        · have hk2 : k + 1 + 1 ≤ m + 1 := by omega
          simp [hk, hk2]
        · have hk2 : ¬ (k + 1 + 1 ≤ m + 1) := by omega
          have e : k + 1 + 1 - (m + 1) = k + 1 - m := by omega
          simp only [hk, hk2, if_false, e, Option.map_map]
          congr 1

/-- C10 (as amended). In every run of the wait loop that stops, the loop
queries first and sleeps afterwards: exactly `k - 1` interval sleeps precede the
`k`-th call of `GetDomainStatus`, for every `k` from 1 to the number of calls made
(none precedes the first), and the trace has no further query. -/
theorem poller_queries_then_sleeps (status : Nat → Except String String)
    (interval timeout : Int) (fuel : Nat) (r : PollResult)
    (hrun : poller status interval timeout fuel = some r) :
    ∀ k, sleepsBeforeQuery r.trace k
      = if 1 ≤ k ∧ k ≤ r.queries then some (k - 1) else none := by
  intro k
  obtain ⟨m, hq0, ht⟩ := poll_trace status _ fuel 0 _ [] r hrun
  have hq : r.queries = m + 1 := by omega
  rcases ht with ht | ht
  · rw [ht, hq, List.nil_append, sleeps_rounds]
    by_cases h0 : k = 0
    · simp [h0]
    · by_cases hk : k ≤ m
      · have : 1 ≤ k ∧ k ≤ m + 1 := by omega
        simp [h0, hk, this]
      · by_cases hk1 : k = m + 1
        · subst hk1
          simp [sleepsBeforeQuery]
        · have hn : ¬ (1 ≤ k ∧ k ≤ m + 1) := by omega
          obtain ⟨d, hd⟩ : ∃ d, k - m = d + 2 := ⟨k - m - 2, by omega⟩
          simp [h0, hk, hn, hd, sleepsBeforeQuery]
  · have ht2 : r.trace = rounds (wrapInt64 (wrapInt64 (1 * wrapInt64 interval) * 1000000000))
        (m + 1) ++ [] := by simpa using ht
    rw [ht2, hq, sleeps_rounds]
    by_cases h0 : k = 0
    · simp [h0]
    · by_cases hk : k ≤ m + 1
      · have : 1 ≤ k ∧ k ≤ m + 1 := by omega
        simp [h0, hk, this]
      · have hn : ¬ (1 ≤ k ∧ k ≤ m + 1) := by omega
        obtain ⟨d, hd⟩ : ∃ d, k - (m + 1) = d + 1 := ⟨k - (m + 1) - 1, by omega⟩
        simp [h0, hk, hn, hd, sleepsBeforeQuery]

/-- C10 (as amended) at the answers `PENDING`, `PENDING`, `COMPLETE`. -/
theorem poller_queries_then_sleeps_witness :
    poller (statusFrom ["PENDING", "PENDING", "COMPLETE"]) 1 10 3
      = some ⟨PollState.complete, 3, rounds 1000000000 3⟩ ∧
    ∀ k, sleepsBeforeQuery (rounds 1000000000 3) k
      = if 1 ≤ k ∧ k ≤ 3 then some (k - 1) else none :=
  ⟨by decide,
    poller_queries_then_sleeps (statusFrom ["PENDING", "PENDING", "COMPLETE"]) 1 10 3
      ⟨PollState.complete, 3, rounds 1000000000 3⟩ (by decide)⟩

/-- C10 as stated fails: it is not so that `k` interval sleeps precede the `k`-th
status query of every run. With answers `PENDING`, `PENDING`, `COMPLETE` the
first query comes before any sleep. -/
theorem poller_sleep_first_fails :
    ¬ (∀ (status : Nat → Except String String) (interval timeout : Int) (fuel : Nat)
        (r : PollResult) (k : Nat),
        poller status interval timeout fuel = some r → 1 ≤ k → k ≤ r.queries →
        sleepsBeforeQuery r.trace k = some k) := by
  intro h
  have h1 := h (statusFrom ["PENDING", "PENDING", "COMPLETE"]) 1 10 3
    ⟨PollState.complete, 3, rounds 1000000000 3⟩ 1 (by decide) (by decide) (by decide)
  revert h1
  decide

/-! ## The whole command -/

lemma cmd_run (E : Env) (c : Flags) (g0 : Globals) (fuel : Nat) (ids : List Int)
    (props : List Property)
    (hcfg : E.GetEdgegridConfig = none) (harg : c.nArg ≠ 0)
    (hflags : (c.enableSet && c.disableSet) = false)
    (hnick : E.ParseNicknames c.nicknamesList c.domainName = Except.ok ids)
    (hdc : c.datacenterSet = true) (hfl : c.flagList ++ ids ≠ [])
    (hdom : E.GetDomain c.domainName = Except.ok props) :
    cmdUpdateDatacenter E c g0 fuel =
      match waitForCompletion E c
        (updatePass E c (c.flagList ++ ids) 0 props (applyFlags c g0)).2 fuel with
      | none => none
      | some poll =>
        some ⟨(finish E c (updatePass E c (c.flagList ++ ids) 0 props (applyFlags c g0)).2
                props).err,
          (updatePass E c (c.flagList ++ ids) 0 props (applyFlags c g0)).2,
          (updatePass E c (c.flagList ++ ids) 0 props (applyFlags c g0)).1, poll,
          (finish E c (updatePass E c (c.flagList ++ ids) 0 props (applyFlags c g0)).2
                props).updateSum,
          (finish E c (updatePass E c (c.flagList ++ ids) 0 props (applyFlags c g0)).2
                props).out⟩ := by
  have hlen : ¬ (c.flagList ++ ids).length = 0 := by
    intro h
    exact hfl (List.length_eq_zero.mp h)
  unfold cmdUpdateDatacenter
  simp only [hcfg, harg, hflags, hnick, hdc, hdom, hlen, if_false, Bool.not_true,
    Bool.false_or, decide_False, Bool.false_eq_true]

lemma pass_settings (E : Env) (c : Flags) (fl : List Int) (ps : List Property) (g : Globals) :
    (updatePass E c fl 0 ps g).2.dcDryrun = g.dcDryrun ∧
    (updatePass E c fl 0 ps g).2.dcComplete = g.dcComplete ∧
    (updatePass E c fl 0 ps g).2.verboseStatus = g.verboseStatus ∧
    (updatePass E c fl 0 ps g).2.dcTimeout = g.dcTimeout := by
  have h := (pass_lists E c fl ps 0 g).1
  have h1 := congrArg Globals.dcDryrun h
  have h2 := congrArg Globals.dcComplete h
  have h3 := congrArg Globals.verboseStatus h
  have h4 := congrArg Globals.dcTimeout h
  exact ⟨h1, h2, h3, h4⟩

lemma start_fresh (c : Flags) (dt : Int) (vs : Bool) :
    clearAccum (applyFlags c (Globals.initial dt vs)) = applyFlags c (Globals.initial dt vs) ∧
    (applyFlags c (Globals.initial dt vs)).dcDryrun = c.dryrunSet ∧
    (applyFlags c (Globals.initial dt vs)).dcComplete = c.completeSet ∧
    ((c.verboseSet && (applyFlags c (Globals.initial dt vs)).verboseStatus) = c.verboseSet) := by
  refine ⟨rfl, ?_, ?_, ?_⟩
  · cases h : c.dryrunSet <;> simp [applyFlags, Globals.initial, h]
  · cases h : c.completeSet <;> simp [applyFlags, Globals.initial, h]
  · cases h : c.verboseSet <;> simp [applyFlags, Globals.initial, h]

lemma finish_single (E : Env) (c : Flags) (g : Globals) (p : Property)
    (f : Nat × FailUpdate) (rest : List (Nat × FailUpdate))
    (hf : g.failedArray = f :: rest) :
    finish E c g [p] = ⟨some (CmdError.exit (E.RedString
      ("Error updating property " ++ f.2.PropName ++ ": " ++ f.2.FailMsg)) 1), none, []⟩ := by
  simp [finish, hf]

/-- C4 (as amended). If the domain has exactly one property, the mutator changed
it, and its `Update` fails in live mode, then the command, started at process
start, records the failure with the property's name and the error text and
returns an exit error with code 1 whose message is the red-coloured text
`Error updating property <PropName>: <FailMsg>` made from that record. -/
theorem single_failure_exit (E : Env) (c : Flags) (dt : Int) (vs : Bool)
    (ids : List Int) (p : Property) (msg : String) (fuel : Nat)
    (hcfg : E.GetEdgegridConfig = none) (harg : c.nArg ≠ 0)
    (hflags : (c.enableSet && c.disableSet) = false)
    (hnick : E.ParseNicknames c.nicknamesList c.domainName = Except.ok ids)
    (hdc : c.datacenterSet = true) (hfl : c.flagList ++ ids ≠ [])
    (hdom : E.GetDomain c.domainName = Except.ok [p])
    (hlive : c.dryrunSet = false)
    (hdirty : (mutate (c.enableSet || c.disableSet)
      (applyFlags c (Globals.initial dt vs)).dcEnabled (c.flagList ++ ids) p).2 = true)
    (hfail : E.Update 0 (mutate (c.enableSet || c.disableSet)
      (applyFlags c (Globals.initial dt vs)).dcEnabled (c.flagList ++ ids) p).1 c.domainName
        = Except.error msg) :
    ∃ r, cmdUpdateDatacenter E c (Globals.initial dt vs) fuel = some r ∧
      r.globals.failedArray = [(0, ⟨p.Name, msg⟩)] ∧
      r.err = some (CmdError.exit
        (E.RedString ("Error updating property " ++ p.Name ++ ": " ++ msg)) 1) := by
  obtain ⟨hfresh, hd, _, _⟩ := start_fresh c dt vs
  rw [hlive] at hd
  obtain ⟨h1, h2, h3, _, _, _⟩ :=
    fresh_pass E c (c.flagList ++ ids) (applyFlags c (Globals.initial dt vs)) hfresh [p]
  obtain ⟨_, _, _, herr, _⟩ := contribution_live E c (c.flagList ++ ids)
    (applyFlags c (Globals.initial dt vs)) 0 p hd hdirty
  obtain ⟨e1, e2, e3⟩ := herr msg hfail
  simp only [gather, List.append_nil, e1, e2, e3] at h1 h2 h3
  have hw : waitForCompletion E c
      (updatePass E c (c.flagList ++ ids) 0 [p] (applyFlags c (Globals.initial dt vs))).2 fuel
      = some none := by
    simp [waitForCompletion, h1, h2]
  rw [cmd_run E c _ fuel ids [p] hcfg harg hflags hnick hdc hfl hdom, hw]
  refine ⟨_, rfl, h3, ?_⟩
  simp only
  rw [finish_single E c _ p _ [] h3]

/-- C4 (as amended) at the sample service with a domain of one property. -/
theorem single_failure_exit_witness :
    (singleEnv.GetEdgegridConfig = none ∧ sampleFlags.nArg ≠ 0 ∧
      (sampleFlags.enableSet && sampleFlags.disableSet) = false ∧
      singleEnv.ParseNicknames sampleFlags.nicknamesList sampleFlags.domainName
        = Except.ok [] ∧
      sampleFlags.datacenterSet = true ∧ sampleFlags.flagList ++ [] ≠ [] ∧
      singleEnv.GetDomain sampleFlags.domainName
        = Except.ok [⟨"www", [⟨7, "east", true⟩, ⟨8, "west", true⟩]⟩] ∧
      sampleFlags.dryrunSet = false ∧
      (mutate (sampleFlags.enableSet || sampleFlags.disableSet)
        (applyFlags sampleFlags (Globals.initial 300 false)).dcEnabled
        (sampleFlags.flagList ++ []) ⟨"www", [⟨7, "east", true⟩, ⟨8, "west", true⟩]⟩).2 = true ∧
      singleEnv.Update 0 (mutate (sampleFlags.enableSet || sampleFlags.disableSet)
        (applyFlags sampleFlags (Globals.initial 300 false)).dcEnabled
        (sampleFlags.flagList ++ []) ⟨"www", [⟨7, "east", true⟩, ⟨8, "west", true⟩]⟩).1
        sampleFlags.domainName = Except.error "boom") ∧
    ∃ r, cmdUpdateDatacenter singleEnv sampleFlags (Globals.initial 300 false) 0 = some r ∧
      r.globals.failedArray = [(0, ⟨"www", "boom"⟩)] ∧
      r.err = some (CmdError.exit
        (singleEnv.RedString ("Error updating property " ++ "www" ++ ": " ++ "boom")) 1) :=
  ⟨⟨rfl, by decide, rfl, rfl, rfl, by decide, rfl, rfl, by decide, rfl⟩,
    single_failure_exit singleEnv sampleFlags 300 false []
      ⟨"www", [⟨7, "east", true⟩, ⟨8, "west", true⟩]⟩ "boom" 0
      rfl (by decide) rfl rfl rfl (by decide) rfl rfl (by decide) rfl⟩

/-- C4 as stated fails: for a domain of one property whose update fails with the
error text `boom`, the command exits with code 1, but its message is
`Error updating property www: boom`, not the recorded `FailMsg`, `boom`. -/
theorem single_failure_message_differs :
    ∃ r, cmdUpdateDatacenter singleEnv sampleFlags (Globals.initial 300 false) 0 = some r ∧
      r.globals.failedArray = [(0, ⟨"www", "boom"⟩)] ∧
      r.err = some (CmdError.exit "Error updating property www: boom" 1) ∧
      r.err ≠ some (CmdError.exit "boom" 1) :=
  ⟨_, rfl, by decide, by decide, by decide⟩

/-! ## The wait loop always stops -/

lemma poll_terminates_pos (status : Nat → Except String String) (si : Int)
    (hsi : 1 ≤ si) (hsi2 : si < 2 ^ 63) :
    ∀ (fuel k : Nat) (v : Int) (tr : List PollEvent),
      0 < v → v < 2 ^ 63 → v.toNat ≤ fuel →
      ∃ r, pollLoop status si fuel k v tr = some r := by
  intro fuel
  induction fuel with
  | zero => intro k v tr h0 _ hle; omega
  | succ fuel ih =>
    intro k v tr h0 h63 hle
    simp only [pollLoop]
    cases hs : status k with
    | error e => exact ⟨_, rfl⟩
    | ok s =>
      simp only
      have hw : wrapInt64 (v - si) = v - si := wrapInt64_id _ (by omega) (by omega)
      rw [hw]
      split_ifs with h1 h2 h3
      · exact ⟨_, rfl⟩
      · exact ⟨_, rfl⟩
      · exact ⟨_, rfl⟩
      · exact ih _ _ _ (by omega) (by omega) (by omega)

lemma poll_terminates (status : Nat → Except String String) (si : Int)
    (hsi : 1 ≤ si) (hsi2 : si < 2 ^ 63) (fuel k : Nat) (v : Int) (tr : List PollEvent)
    (hfuel : 2 ^ 63 + 1 ≤ fuel) :
    ∃ r, pollLoop status si fuel k v tr = some r := by
  obtain ⟨f, rfl⟩ : ∃ f, fuel = f + 1 := ⟨fuel - 1, by omega⟩
  simp only [pollLoop]
  cases hs : status k with
  | error e => exact ⟨_, rfl⟩
  | ok s =>
    simp only
    obtain ⟨hr1, hr2⟩ := wrapInt64_range (v - si)
    split_ifs with h1 h2 h3
    · exact ⟨_, rfl⟩
    · exact ⟨_, rfl⟩
    · exact ⟨_, rfl⟩
    · exact poll_terminates_pos status si hsi hsi2 f _ _ _ (by omega) hr2 (by omega)

lemma wait_terminates (E : Env) (c : Flags) (g : Globals) (fuel : Nat)
    (hwait : g.dcComplete = false ∨ (1 ≤ E.defaultInterval ∧ E.defaultInterval < 2 ^ 63))
    (hfuel : 2 ^ 63 + 1 ≤ fuel) :
    ∃ poll, waitForCompletion E c g fuel = some poll := by
  unfold waitForCompletion
  split_ifs with h
  · rcases hwait with hc | ⟨hi1, hi2⟩
    · simp [hc] at h
    · have hwi : wrapInt64 (1 * wrapInt64 E.defaultInterval) = E.defaultInterval := by
        rw [wrapInt64_id E.defaultInterval (by omega) hi2, one_mul,
          wrapInt64_id E.defaultInterval (by omega) hi2]
      obtain ⟨r, hr⟩ := poll_terminates (fun k => E.GetDomainStatus k c.domainName)
        E.defaultInterval hi1 hi2 fuel 0 (wrapInt64 (1 * wrapInt64 g.dcTimeout)) [] hfuel
      refine ⟨some r, ?_⟩
      unfold poller
      rw [hwi, hr]
      rfl
  · exact ⟨none, rfl⟩

lemma gather_mem {β : Type} (tag : β → Nat) (f : Nat → Property → List β)
    (hf : ∀ j q, ∀ e ∈ f j q, tag e = j) (ps : List Property) (j : Nat) (q : Property)
    (hq : ps[j]? = some q) (e : β) (he : e ∈ f j q) : e ∈ gather f 0 ps := by
  have h := gather_at tag f hf ps j
  rw [hq] at h
  simp only at h
  rw [← h] at he
  exact (List.mem_filter.mp he).1

lemma finish_multi (E : Env) (c : Flags) (g : Globals) (props : List Property)
    (h : props.length ≠ 1) : finish E c g props = summarize E c g := by
  unfold finish
  have hdec : decide (props.length = 1) = false := by simp [h]
  rw [hdec]

lemma summarize_live (E : Env) (c : Flags) (g : Globals)
    (hd : g.dcDryrun = false) (hf : g.failedArray ≠ []) (up : UpdatedProperties)
    (hup : up = (if ((c.verboseSet && g.verboseStatus) &&
        decide (g.succVerboseArray.length > 0)) = true then
          UpdatedProperties.verbose (g.succVerboseArray.map Prod.snd)
        else if g.succShortArray.length > 0 then
          UpdatedProperties.short (g.succShortArray.map Prod.snd)
        else UpdatedProperties.unset)) :
    (summarize E c g).updateSum = some ⟨up, some (g.failedArray.map Prod.snd)⟩ ∧
    ((c.jsonSet && c.json) = false →
      (summarize E c g).err = none ∧
      (summarize E c g).out = [Output.line "", Output.line (renderDCStatus E c g)]) ∧
    (∀ js, (c.jsonSet && c.json) = true →
      E.MarshalSummary ⟨up, some (g.failedArray.map Prod.snd)⟩ = Except.ok js →
      (summarize E c g).err = none ∧ (summarize E c g).out = [Output.line js]) := by
  have hlen : g.failedArray.length > 0 := List.length_pos.mpr hf
  subst hup
  unfold summarize
  simp only [hd, Bool.false_eq_true, if_false, hlen, if_true]
  by_cases hj : (c.jsonSet && c.json) = true
  · simp only [hj, if_true]
    refine ⟨?_, ?_, ?_⟩
    · simp only [reduceCtorEq, false_and, if_false]
      split <;> rfl
    · intro h; simp at h
    · intro js _ hjs
      simp only [reduceCtorEq, false_and, if_false]
      rw [hjs]
      exact ⟨rfl, rfl⟩
  · simp only [hj, if_false]
    refine ⟨?_, ?_, ?_⟩
    · simp
    · intro _; simp
    · intro js h; exact absurd h (by simp)

/-- C5. In live mode, for a domain of two or more properties in which the
`Update` of one changed property fails and the `Update` of another succeeds, the
command, started at process start and given room for the wait loop, returns nil
(exit code 0), and the summary it builds and writes has a failure list with the
failed property's record and, as `Updated_Properties`, the verbose success list
with the other property's record if `verbose` is set and the short one with its
record if not. Assumed of what lies outside the file: the JSON encoder accepts
the summary, and the polling interval is a 64-bit value of at least 1 when
completion is waited for. -/
theorem mixed_outcome_exit_zero (E : Env) (c : Flags) (dt : Int) (vs : Bool)
    (ids : List Int) (props : List Property) (a b : Nat) (pa pb : Property)
    (msg : String) (stat : ResponseStatus) (fuel : Nat)
    (hcfg : E.GetEdgegridConfig = none) (harg : c.nArg ≠ 0)
    (hflags : (c.enableSet && c.disableSet) = false)
    (hnick : E.ParseNicknames c.nicknamesList c.domainName = Except.ok ids)
    (hdc : c.datacenterSet = true) (hfl : c.flagList ++ ids ≠ [])
    (hdom : E.GetDomain c.domainName = Except.ok props)
    (hlive : c.dryrunSet = false) (htwo : 2 ≤ props.length)
    (ha : props[a]? = some pa) (hb : props[b]? = some pb)
    (hda : (mutate (c.enableSet || c.disableSet)
      (applyFlags c (Globals.initial dt vs)).dcEnabled (c.flagList ++ ids) pa).2 = true)
    (hdb : (mutate (c.enableSet || c.disableSet)
      (applyFlags c (Globals.initial dt vs)).dcEnabled (c.flagList ++ ids) pb).2 = true)
    (hfail : E.Update a (mutate (c.enableSet || c.disableSet)
      (applyFlags c (Globals.initial dt vs)).dcEnabled (c.flagList ++ ids) pa).1 c.domainName
        = Except.error msg)
    (hok : E.Update b (mutate (c.enableSet || c.disableSet)
      (applyFlags c (Globals.initial dt vs)).dcEnabled (c.flagList ++ ids) pb).1 c.domainName
        = Except.ok stat)
    (hwait : c.completeSet = false ∨ (1 ≤ E.defaultInterval ∧ E.defaultInterval < 2 ^ 63))
    (hjson : ∀ sum, ∃ js, E.MarshalSummary sum = Except.ok js)
    (hfuel : 2 ^ 63 + 1 ≤ fuel) :
    ∃ r sum, cmdUpdateDatacenter E c (Globals.initial dt vs) fuel = some r ∧
      r.err = none ∧ r.updateSum = some sum ∧
      (∃ fl, sum.Failed_Updates = some fl ∧ fl ≠ [] ∧ ⟨pa.Name, msg⟩ ∈ fl) ∧
      (c.verboseSet = true → ∃ l, sum.Updated_Properties = UpdatedProperties.verbose l ∧
        l ≠ [] ∧ ⟨pb.Name, stat⟩ ∈ l) ∧
      (c.verboseSet = false → ∃ l, sum.Updated_Properties = UpdatedProperties.short l ∧
        l ≠ [] ∧ ⟨pb.Name, stat.ChangeId⟩ ∈ l) ∧
      ((c.jsonSet && c.json) = true →
        ∃ js, E.MarshalSummary sum = Except.ok js ∧ r.out = [Output.line js]) ∧
      ((c.jsonSet && c.json) = false →
        r.out = [Output.line "", Output.line (renderDCStatus E c r.globals)]) := by
  obtain ⟨hfresh, hd, hcomp, hverb⟩ := start_fresh c dt vs
  rw [hlive] at hd
  obtain ⟨s1, s2, s3, _⟩ := pass_settings E c (c.flagList ++ ids) props
    (applyFlags c (Globals.initial dt vs))
  obtain ⟨h1, h2, h3, _, _, _⟩ :=
    fresh_pass E c (c.flagList ++ ids) (applyFlags c (Globals.initial dt vs)) hfresh props
  have ht := fun i q => contribution_tags E c (c.flagList ++ ids)
    (applyFlags c (Globals.initial dt vs)) i q
  obtain ⟨_, _, _, herr, _⟩ := contribution_live E c (c.flagList ++ ids)
    (applyFlags c (Globals.initial dt vs)) a pa hd hda
  obtain ⟨_, _, _, _, hsucc⟩ := contribution_live E c (c.flagList ++ ids)
    (applyFlags c (Globals.initial dt vs)) b pb hd hdb
  obtain ⟨ef, _, _⟩ := herr msg hfail
  obtain ⟨_, ev, es⟩ := hsucc stat hok
  rw [hverb] at ev es
  -- the failure record of `pa`
  have mf : ((a, ⟨pa.Name, msg⟩) : Nat × FailUpdate) ∈
      (updatePass E c (c.flagList ++ ids) 0 props
        (applyFlags c (Globals.initial dt vs))).2.failedArray := by
    rw [h3]
    exact gather_mem Prod.fst _ (fun i q => (ht i q).2.2.1.1) props a pa ha _
      (by rw [ef]; exact List.mem_singleton.mpr rfl)
  have hfne : (updatePass E c (c.flagList ++ ids) 0 props
      (applyFlags c (Globals.initial dt vs))).2.failedArray ≠ [] :=
    List.ne_nil_of_mem mf
  -- the wait loop stops, the early exit is not taken
  obtain ⟨poll, hpoll⟩ := wait_terminates E c
    (updatePass E c (c.flagList ++ ids) 0 props (applyFlags c (Globals.initial dt vs))).2 fuel
    (by rw [s2, hcomp]; exact hwait) hfuel
  rw [cmd_run E c _ fuel ids props hcfg harg hflags hnick hdc hfl hdom, hpoll]
  rw [finish_multi E c _ props (by omega)]
  obtain ⟨u1, u2, u3⟩ := summarize_live E c
    (updatePass E c (c.flagList ++ ids) 0 props (applyFlags c (Globals.initial dt vs))).2
    (by rw [s1]; exact hd) hfne _ rfl
  refine ⟨_, _, rfl, ?_, u1, ?_, ?_, ?_, ?_, ?_⟩
  · simp only
    by_cases hj : (c.jsonSet && c.json) = true
    · obtain ⟨js, hjs⟩ := hjson ⟨_, some ((updatePass E c (c.flagList ++ ids) 0 props
        (applyFlags c (Globals.initial dt vs))).2.failedArray.map Prod.snd)⟩
      exact (u3 js hj hjs).1
    · exact (u2 (by simpa using hj)).1
  · exact ⟨_, rfl, by simpa using hfne, List.mem_map.mpr ⟨_, mf, rfl⟩⟩
  · intro hv
    rw [hv] at ev
    have mv : ((b, ⟨pb.Name, stat⟩) : Nat × SuccUpdateVerbose) ∈
        (updatePass E c (c.flagList ++ ids) 0 props
          (applyFlags c (Globals.initial dt vs))).2.succVerboseArray := by
      rw [h2]
      exact gather_mem Prod.fst _ (fun i q => (ht i q).2.1.1) props b pb hb _
        (by rw [ev]; simp)
    have hpos : (updatePass E c (c.flagList ++ ids) 0 props
        (applyFlags c (Globals.initial dt vs))).2.succVerboseArray.length > 0 :=
      List.length_pos_of_mem mv
    refine ⟨List.map Prod.snd (updatePass E c (c.flagList ++ ids) 0 props
      (applyFlags c (Globals.initial dt vs))).2.succVerboseArray, ?_, ?_,
      List.mem_map.mpr ⟨_, mv, rfl⟩⟩
    · simp only [s3]
      rw [hverb]
      simp [hv, hpos]
    · simpa using List.ne_nil_of_mem mv
  · intro hv
    rw [hv] at es
    have ms : ((b, ⟨pb.Name, stat.ChangeId⟩) : Nat × SuccUpdateShort) ∈
        (updatePass E c (c.flagList ++ ids) 0 props
          (applyFlags c (Globals.initial dt vs))).2.succShortArray := by
      rw [h1]
      exact gather_mem Prod.fst _ (fun i q => (ht i q).1.1) props b pb hb _
        (by rw [es]; simp)
    have hpos : (updatePass E c (c.flagList ++ ids) 0 props
        (applyFlags c (Globals.initial dt vs))).2.succShortArray.length > 0 :=
      List.length_pos_of_mem ms
    refine ⟨List.map Prod.snd (updatePass E c (c.flagList ++ ids) 0 props
      (applyFlags c (Globals.initial dt vs))).2.succShortArray, ?_, ?_,
      List.mem_map.mpr ⟨_, ms, rfl⟩⟩
    · simp only [s3]
      rw [hverb]
      simp [hv, hpos]
    · simpa using List.ne_nil_of_mem ms
  · intro hj
    obtain ⟨js, hjs⟩ := hjson ⟨_, some ((updatePass E c (c.flagList ++ ids) 0 props
      (applyFlags c (Globals.initial dt vs))).2.failedArray.map Prod.snd)⟩
    exact ⟨js, hjs, (u3 js hj hjs).2⟩
  · intro hj
    exact (u2 hj).2

/-- C5 at the sample run: the update of `www` fails, that of `api` succeeds. -/
theorem mixed_outcome_exit_zero_witness :
    (sampleEnv.GetEdgegridConfig = none ∧ sampleFlags.nArg ≠ 0 ∧
      (sampleFlags.enableSet && sampleFlags.disableSet) = false ∧
      sampleEnv.ParseNicknames sampleFlags.nicknamesList sampleFlags.domainName
        = Except.ok [] ∧
      sampleFlags.datacenterSet = true ∧ sampleFlags.flagList ++ [] ≠ [] ∧
      sampleEnv.GetDomain sampleFlags.domainName = Except.ok sampleProperties ∧
      sampleFlags.dryrunSet = false ∧ 2 ≤ sampleProperties.length ∧
      sampleProperties[0]? = some ⟨"www", [⟨7, "east", true⟩, ⟨8, "west", true⟩]⟩ ∧
      sampleProperties[1]? = some ⟨"api", [⟨7, "east", true⟩]⟩ ∧
      (mutate (sampleFlags.enableSet || sampleFlags.disableSet)
        (applyFlags sampleFlags (Globals.initial 300 false)).dcEnabled
        (sampleFlags.flagList ++ []) ⟨"www", [⟨7, "east", true⟩, ⟨8, "west", true⟩]⟩).2 = true ∧
      (mutate (sampleFlags.enableSet || sampleFlags.disableSet)
        (applyFlags sampleFlags (Globals.initial 300 false)).dcEnabled
        (sampleFlags.flagList ++ []) ⟨"api", [⟨7, "east", true⟩]⟩).2 = true ∧
      sampleEnv.Update 0 (mutate (sampleFlags.enableSet || sampleFlags.disableSet)
        (applyFlags sampleFlags (Globals.initial 300 false)).dcEnabled
        (sampleFlags.flagList ++ []) ⟨"www", [⟨7, "east", true⟩, ⟨8, "west", true⟩]⟩).1
        sampleFlags.domainName = Except.error "boom" ∧
      sampleEnv.Update 1 (mutate (sampleFlags.enableSet || sampleFlags.disableSet)
        (applyFlags sampleFlags (Globals.initial 300 false)).dcEnabled
        (sampleFlags.flagList ++ []) ⟨"api", [⟨7, "east", true⟩]⟩).1
        sampleFlags.domainName = Except.ok ⟨"42", "accepted", true, "PENDING", "today"⟩ ∧
      (sampleFlags.completeSet = false ∨
        (1 ≤ sampleEnv.defaultInterval ∧ sampleEnv.defaultInterval < 2 ^ 63)) ∧
      (∀ sum, ∃ js, sampleEnv.MarshalSummary sum = Except.ok js) ∧
      2 ^ 63 + 1 ≤ 2 ^ 63 + 1) ∧
    ∃ r sum, cmdUpdateDatacenter sampleEnv sampleFlags (Globals.initial 300 false)
        (2 ^ 63 + 1) = some r ∧
      r.err = none ∧ r.updateSum = some sum ∧
      (∃ fl, sum.Failed_Updates = some fl ∧ fl ≠ [] ∧
        ⟨(Property.mk "www" [⟨7, "east", true⟩, ⟨8, "west", true⟩]).Name, "boom"⟩ ∈ fl) ∧
      (sampleFlags.verboseSet = true →
        ∃ l, sum.Updated_Properties = UpdatedProperties.verbose l ∧ l ≠ [] ∧
          ⟨(Property.mk "api" [⟨7, "east", true⟩]).Name,
            ⟨"42", "accepted", true, "PENDING", "today"⟩⟩ ∈ l) ∧
      (sampleFlags.verboseSet = false →
        ∃ l, sum.Updated_Properties = UpdatedProperties.short l ∧ l ≠ [] ∧
          ⟨(Property.mk "api" [⟨7, "east", true⟩]).Name,
            (ResponseStatus.mk "42" "accepted" true "PENDING" "today").ChangeId⟩ ∈ l) ∧
      ((sampleFlags.jsonSet && sampleFlags.json) = true →
        ∃ js, sampleEnv.MarshalSummary sum = Except.ok js ∧ r.out = [Output.line js]) ∧
      ((sampleFlags.jsonSet && sampleFlags.json) = false →
        r.out = [Output.line "", Output.line (renderDCStatus sampleEnv sampleFlags r.globals)]) :=
  ⟨⟨rfl, by decide, rfl, rfl, rfl, by decide, rfl, rfl, by decide, rfl, rfl, by decide,
      by decide, rfl, rfl, Or.inl rfl, fun _ => ⟨"summary", rfl⟩, le_refl _⟩,
    mixed_outcome_exit_zero sampleEnv sampleFlags 300 false [] sampleProperties 0 1
      ⟨"www", [⟨7, "east", true⟩, ⟨8, "west", true⟩]⟩ ⟨"api", [⟨7, "east", true⟩]⟩ "boom"
      ⟨"42", "accepted", true, "PENDING", "today"⟩ (2 ^ 63 + 1)
      rfl (by decide) rfl rfl rfl (by decide) rfl rfl (by decide) rfl rfl (by decide)
      (by decide) rfl rfl (Or.inl rfl) (fun _ => ⟨"summary", rfl⟩) (le_refl _)⟩

end CliGtm
